import Mathlib

/-! pulumi-deploy, package `aws`: container definitions and ECS cluster provisioning

A shallow embedding of `aws/container.go` and `aws/ecs.go`, and the proofs of the properties
that the specification states about them.

Conventions of the embedding.

* A Go `string` is a Lean `String`, that is a string holding valid UTF-8 (for a byte that is
  not, `encoding/json` writes `\ufffd`; such strings are outside the model).
* A Go `int` is a Lean `Int`; no arithmetic is performed on it, it is only printed.
* A Go slice or map that may be `nil` is an `Option`: `none` is `nil`, `some []` is the
  empty non-nil value.  A map is an association list (a Go map has each key once); the
  encoder sorts it by key.
* A Go pointer that may be `nil` is an `Option`.
* A Go `error` result is an `Option Error`: `none` is `nil`.
* A method with a pointer receiver that mutates the receiver returns the new receiver
  next to its result.
* A value of type `interface{}` is a `GoValue`: the kinds of value that `encoding/json`
  tells apart and that have a text independent of floating point, and one constructor for
  the kinds it rejects.
* The external libraries are not part of the repository.  `encoding/json` is modelled after
  its documentation: `ContainerDefinition.toJson` gives the JSON value that `json.Marshal`
  writes for a definition and `Json.render` its compact text, with the escaping of
  `json.Marshal` (backspace and form feed are written `\u0008` and `\u000c`, as the Go
  releases before 1.22 do).  The Pulumi SDK is a parameter of `ECS.Run`: a `Backend` answers
  the creation calls, and a `Context` records every request made.
* `parseJson` is a reader of JSON text (RFC 8259, numbers restricted to integers); it is
  proved to invert `Json.render` and fixes what "parses as" means below.
-/

namespace Aws

/-! ## Errors -/

/-- The Go type `string`. -/
abbrev GoString := String

/-- Go `error` values: an error carries its message. -/
structure Error where
  msg : String
deriving DecidableEq, Repr

/-- `fmt.Errorf` applied to a format string without verbs. -/
def Errorf (msg : String) : Error := ⟨msg⟩

/-! ## Dynamic values (`interface{}`) -/

/-- Values that an `interface{}` can hold, as far as `encoding/json` distinguishes them:
the nil interface, booleans, integers, strings, slices and string-keyed maps of such values
(each possibly nil), and values of a kind that `encoding/json` rejects (channels, functions,
complex numbers), represented by `chan`. -/
inductive GoValue where
  | nil
  | bool (b : Bool)
  | int (i : Int)
  | str (s : String)
  | nilSlice
  | slice (xs : List GoValue)
  | nilMap
  | map (kvs : List (String × GoValue))
  | chan

/-! ## The data model of `container.go` -/

structure ContainerLinuxCapabilities where
  Add : Option (List String)
  Drop : Option (List String)
deriving DecidableEq

structure ContainerLinuxParameters where
  Capabilities : ContainerLinuxCapabilities
deriving DecidableEq

structure ContainerEnvVar where
  Name : String
  Value : String
deriving DecidableEq

structure ContainerPortMapping where
  ContainerPort : Int
  HostPort : Int
  Protocol : String
deriving DecidableEq

structure ContainerLogConfig where
  LogDriver : String
  SecretOptions : GoValue
  Options : Option (List (String × GoValue))

structure ContainerDefinition where
  Name : String
  Image : String
  PortMappings : Option (List ContainerPortMapping)
  Environment : Option (List ContainerEnvVar)
  LogConfiguration : Option ContainerLogConfig
  DockerLabels : Option (List (String × String))
  LinuxParameters : Option ContainerLinuxParameters

/-- The method `(*ContainerDefinition).Validate`: returns the receiver as the method leaves it
together with the returned error. -/
def ContainerDefinition.Validate (d : ContainerDefinition) : ContainerDefinition × Option Error :=
  if d.Name = "" then
    (d, some (Errorf "missing ContainerDefinition.Name"))
  else if d.Image = "" then
    (d, some (Errorf "missing ContainerDefinition.Image"))
  else
    let d1 : ContainerDefinition :=
      match d.PortMappings with
      | none => { d with PortMappings := some [] }
      | some _ => d
    let d2 : ContainerDefinition :=
      match d1.Environment with
      | none => { d1 with Environment := some [] }
      | some _ => d1
    match d2.LogConfiguration with
    | none => (d2, some (Errorf "missing ContainerDefinition.LogConfiguration"))
    | some _ => (d2, none)

/-! ## JSON values and their compact text -/

/-- JSON values; an object keeps its members in the order in which they are written. -/
inductive Json where
  | null
  | bool (b : Bool)
  | num (n : Int)
  | str (s : String)
  | arr (xs : List Json)
  | obj (kvs : List (String × Json))

/-- The hexadecimal digit of a number below sixteen, lower case. -/
def hexDigit (n : Nat) : Char :=
  if n < 10 then Char.ofNat (48 + n) else Char.ofNat (87 + n)

/-- The escape `\u00XX` or `\u20XX` written for the code point `n` with high byte `hi`. -/
def uEscape (hi : List Char) (n : Nat) : List Char :=
  '\\' :: 'u' :: hi ++ [hexDigit (n / 16 % 16), hexDigit (n % 16)]

/-- One character of a string, as `encoding/json` writes it with HTML escaping on (the
setting of `json.Marshal`): quote and backslash get a backslash, newline, carriage return and
tab their short escapes, other control characters and `<`, `>`, `&` the form `\u00XX`,
the line and paragraph separators U+2028 and U+2029 the form `\u202X`; every other character is copied. -/
def escapeChar (c : Char) : List Char :=
  if c = '"' then ['\\', '"']
  else if c = '\\' then ['\\', '\\']
  else if c = '\n' then ['\\', 'n']
  else if c = '\r' then ['\\', 'r']
  else if c = '\t' then ['\\', 't']
  else if c.toNat < 32 ∨ c = '<' ∨ c = '>' ∨ c = '&' then uEscape ['0', '0'] c.toNat
  else if c.toNat = 8232 ∨ c.toNat = 8233 then uEscape ['2', '0'] c.toNat
  else [c]

/-- A JSON string literal: the escaped characters between double quotes. -/
def renderString (s : String) : List Char :=
  '"' :: (s.data.flatMap escapeChar ++ ['"'])

/-- The decimal digits of `n`, most significant first; the first argument bounds the number
of digits and is larger than `n` where the function is used. -/
def natDigits : Nat → Nat → List Char
  | 0, _ => []
  | fuel + 1, n =>
    if n < 10 then [Nat.digitChar n] else natDigits fuel (n / 10) ++ [Nat.digitChar (n % 10)]

/-- A natural number in decimal, without leading zero. -/
def renderNat (n : Nat) : List Char :=
  natDigits (n + 1) n

/-- An integer in decimal, with a minus sign when negative. -/
def renderInt : Int → List Char
  | Int.ofNat n => renderNat n
  | Int.negSucc n => '-' :: renderNat (n + 1)

mutual
/-- The compact text of a JSON value, as `encoding/json` writes it: no white space. -/
def Json.render : Json → List Char
  | .null => ['n', 'u', 'l', 'l']
  | .bool true => ['t', 'r', 'u', 'e']
  | .bool false => ['f', 'a', 'l', 's', 'e']
  | .num n => renderInt n
  | .str s => renderString s
  | .arr [] => ['[', ']']
  | .arr (x :: xs) => '[' :: (Json.render x ++ Json.renderTail xs)
  | .obj [] => ['{', '}']
  | .obj ((k, v) :: kvs) => '{' :: (renderString k ++ ':' :: (Json.render v ++ Json.renderMembers kvs))
/-- The elements of an array after the first, each preceded by a comma, and the bracket. -/
def Json.renderTail : List Json → List Char
  | [] => [']']
  | x :: xs => ',' :: (Json.render x ++ Json.renderTail xs)
/-- The members of an object after the first, each preceded by a comma, and the brace. -/
def Json.renderMembers : List (String × Json) → List Char
  | [] => ['}']
  | (k, v) :: kvs => ',' :: (renderString k ++ ':' :: (Json.render v ++ Json.renderMembers kvs))
end

/-! ## `encoding/json`: from Go values to JSON values -/

/-- Byte-wise order on strings (on valid UTF-8 this is the order of the code points). -/
def keyLt : List Char → List Char → Bool
  | _, [] => false
  | [], _ :: _ => true
  | a :: as, b :: bs => decide (a.toNat < b.toNat) || (decide (a.toNat = b.toNat) && keyLt as bs)

/-- Insertion of a member into a list of members sorted by key. -/
def insertMember {α : Type} (kv : String × α) : List (String × α) → List (String × α)
  | [] => [kv]
  | x :: xs => if keyLt x.1.data kv.1.data then x :: insertMember kv xs else kv :: x :: xs

/-- The entries of a map in the order in which `encoding/json` writes them: sorted by key. -/
def sortMembers {α : Type} : List (String × α) → List (String × α)
  | [] => []
  | x :: xs => insertMember x (sortMembers xs)

/-- The error `json.Marshal` returns for a value of a kind it does not support. -/
def unsupportedType : Error := ⟨"json: unsupported type"⟩

mutual
/-- The JSON value of a dynamic value; an error for a value `encoding/json` rejects. -/
def GoValue.toJson : GoValue → Except Error Json
  | .nil => .ok .null
  | .bool b => .ok (.bool b)
  | .int i => .ok (.num i)
  | .str s => .ok (.str s)
  | .nilSlice => .ok .null
  | .slice xs =>
    match GoValue.toJsonList xs with
    | .ok js => .ok (.arr js)
    | .error e => .error e
  | .nilMap => .ok .null
  | .map kvs =>
    match GoValue.toJsonFields kvs with
    | .ok ms => .ok (.obj (sortMembers ms))
    | .error e => .error e
  | .chan => .error unsupportedType
/-- The JSON values of the elements of a slice, in order; the first error stops. -/
def GoValue.toJsonList : List GoValue → Except Error (List Json)
  | [] => .ok []
  | x :: xs =>
    match GoValue.toJson x with
    | .error e => .error e
    | .ok j =>
      match GoValue.toJsonList xs with
      | .error e => .error e
      | .ok js => .ok (j :: js)
/-- The JSON values of the entries of a map. -/
def GoValue.toJsonFields : List (String × GoValue) → Except Error (List (String × Json))
  | [] => .ok []
  | (k, x) :: xs =>
    match GoValue.toJson x with
    | .error e => .error e
    | .ok j =>
      match GoValue.toJsonFields xs with
      | .error e => .error e
      | .ok js => .ok ((k, j) :: js)
end

/-- A `[]string` field: `null` when nil, else the array of its strings. -/
def stringsToJson : Option (List String) → Json
  | none => .null
  | some xs => .arr (xs.map Json.str)

/-- A `map[string]string` field: `null` when nil, else the object of its entries by key. -/
def labelsToJson : Option (List (String × String)) → Json
  | none => .null
  | some kvs => .obj (sortMembers (kvs.map fun kv => (kv.1, Json.str kv.2)))

/-- A `map[string]interface{}` field: `null` when nil, else the object of its entries. -/
def optionsToJson : Option (List (String × GoValue)) → Except Error Json
  | none => .ok .null
  | some kvs => GoValue.toJson (.map kvs)

def ContainerLinuxCapabilities.toJson (c : ContainerLinuxCapabilities) : Json :=
  .obj [("add", stringsToJson c.Add), ("drop", stringsToJson c.Drop)]

def ContainerLinuxParameters.toJson (p : ContainerLinuxParameters) : Json :=
  .obj [("capabilities", p.Capabilities.toJson)]

def ContainerEnvVar.toJson (v : ContainerEnvVar) : Json :=
  .obj [("name", .str v.Name), ("value", .str v.Value)]

def ContainerPortMapping.toJson (m : ContainerPortMapping) : Json :=
  .obj [("containerPort", .num m.ContainerPort), ("hostPort", .num m.HostPort),
    ("protocol", .str m.Protocol)]

/-- The fields of a log configuration are written in declaration order, so an error in
`SecretOptions` is met before one in `Options`. -/
def ContainerLogConfig.toJson (l : ContainerLogConfig) : Except Error Json :=
  match l.SecretOptions.toJson with
  | .error e => .error e
  | .ok so =>
    match optionsToJson l.Options with
    | .error e => .error e
    | .ok os => .ok (.obj [("logDriver", .str l.LogDriver), ("secretOptions", so), ("options", os)])

/-- A slice field of structs: `null` when nil, else the array of the encoded elements. -/
def sliceToJson {α : Type} (f : α → Json) : Option (List α) → Json
  | none => .null
  | some xs => .arr (xs.map f)

/-- A pointer field with a fallible encoder: `null` when nil. -/
def logConfigurationToJson : Option ContainerLogConfig → Except Error Json
  | none => .ok .null
  | some l => l.toJson

/-- The member `linuxParameters`, tagged `omitempty`: absent when the pointer is nil. -/
def linuxParametersMember : Option ContainerLinuxParameters → List (String × Json)
  | none => []
  | some p => [("linuxParameters", p.toJson)]

/-- The JSON object of a container definition: one member per field, named by the field's
`json` tag, in declaration order. -/
def ContainerDefinition.toJson (d : ContainerDefinition) : Except Error Json :=
  match logConfigurationToJson d.LogConfiguration with
  | .error e => .error e
  | .ok lc =>
    .ok (.obj ([("name", .str d.Name), ("image", .str d.Image),
      ("portMappings", sliceToJson ContainerPortMapping.toJson d.PortMappings),
      ("environment", sliceToJson ContainerEnvVar.toJson d.Environment),
      ("logConfiguration", lc),
      ("dockerLabels", labelsToJson d.DockerLabels)] ++ linuxParametersMember d.LinuxParameters))

/-- The call `json.Marshal(d)` for `d : *ContainerDefinition`: the text, or the error. -/
def Marshal (d : ContainerDefinition) : Except Error String :=
  match d.toJson with
  | .error e => .error e
  | .ok j => .ok (String.mk j.render)

/-- The method `(*ContainerDefinition).String`.  The error of `json.Marshal` is discarded;
with it `data` is nil and `string(data)` is the empty string. -/
def ContainerDefinition.String (d : ContainerDefinition) : GoString :=
  let data : GoString :=
    match Marshal d with
    | .ok data => data
    | .error _ => ""
  "[" ++ data ++ "]"

/-! ## Reading JSON text -/

/-- JSON white space. -/
def isSpace (c : Char) : Bool :=
  c = ' ' || c = '\t' || c = '\n' || c = '\r'

/-- The text after leading white space. -/
def skipSpace : List Char → List Char
  | [] => []
  | c :: cs => if isSpace c then skipSpace cs else c :: cs

/-- The value of a decimal digit. -/
def digitValue (c : Char) : Option Nat :=
  if 48 ≤ c.toNat ∧ c.toNat ≤ 57 then some (c.toNat - 48) else none

/-- The value of a hexadecimal digit, in either case. -/
def hexValue (c : Char) : Option Nat :=
  if 48 ≤ c.toNat ∧ c.toNat ≤ 57 then some (c.toNat - 48)
  else if 97 ≤ c.toNat ∧ c.toNat ≤ 102 then some (c.toNat - 87)
  else if 65 ≤ c.toNat ∧ c.toNat ≤ 70 then some (c.toNat - 55)
  else none

/-- The number written by four hexadecimal digits. -/
def hexValue4 (a b c d : Char) : Option Nat :=
  match hexValue a, hexValue b, hexValue c, hexValue d with
  | some x, some y, some z, some w => some (((x * 16 + y) * 16 + z) * 16 + w)
  | _, _, _, _ => none

/-- The digits that continue a number: the value read and the text left. -/
def parseDigits (acc : Nat) : List Char → Nat × List Char
  | [] => (acc, [])
  | c :: cs =>
    match digitValue c with
    | some d => parseDigits (10 * acc + d) cs
    | none => (acc, c :: cs)

/-- A natural number without superfluous leading zero. -/
def parseNat : List Char → Option (Nat × List Char)
  | [] => none
  | c :: cs =>
    match digitValue c with
    | none => none
    | some d => if d = 0 then some (0, cs) else some (parseDigits d cs)

/-- An integer: an optional minus sign and a natural number. -/
def parseInt : List Char → Option (Int × List Char)
  | [] => none
  | c :: cs =>
    if c = '-' then
      match parseNat cs with
      | none => none
      | some (n, rest) => some (Int.negOfNat n, rest)
    else
      match parseNat (c :: cs) with
      | none => none
      | some (n, rest) => some (Int.ofNat n, rest)

/-- The character a one-letter escape stands for. -/
def unescape (c : Char) : Option Char :=
  if c = '"' then some '"'
  else if c = '\\' then some '\\'
  else if c = '/' then some '/'
  else if c = 'b' then some (Char.ofNat 8)
  else if c = 'f' then some (Char.ofNat 12)
  else if c = 'n' then some '\n'
  else if c = 'r' then some '\r'
  else if c = 't' then some '\t'
  else none

/-- The characters of a string literal after its opening quote, up to the closing quote, and
the text left.  Control characters must be escaped; an escape `\uXXXX` must name a character
(surrogate halves are not accepted). -/
def parseStringBody : List Char → Option (List Char × List Char)
  | [] => none
  | c :: cs =>
    if c = '"' then some ([], cs)
    else if c = '\\' then
      match cs with
      | [] => none
      | e :: cs1 =>
        if e = 'u' then
          match cs1 with
          | h1 :: h2 :: h3 :: h4 :: cs2 =>
            match hexValue4 h1 h2 h3 h4 with
            | none => none
            | some n =>
              if n.isValidChar then
                match parseStringBody cs2 with
                | none => none
                | some (s, rest) => some (Char.ofNat n :: s, rest)
              else none
          | _ => none
        else
          match unescape e with
          | none => none
          | some ch =>
            match parseStringBody cs1 with
            | none => none
            | some (s, rest) => some (ch :: s, rest)
    else if c.toNat < 32 then none
    else
      match parseStringBody cs with
      | none => none
      | some (s, rest) => some (c :: s, rest)

/-- The text left after a given word, if the text starts with it. -/
def expect : List Char → List Char → Option (List Char)
  | [], cs => some cs
  | _ :: _, [] => none
  | w :: ws, c :: cs => if w = c then expect ws cs else none

mutual
/-- A JSON value at the head of a text (after white space), and the text left; the first
argument bounds the number of nested calls. -/
def parseValue : Nat → List Char → Option (Json × List Char)
  | 0, _ => none
  | fuel + 1, cs =>
    match skipSpace cs with
    | [] => none
    | c :: rest =>
      if c = 'n' then
        match expect ['u', 'l', 'l'] rest with
        | none => none
        | some rest1 => some (.null, rest1)
      else if c = 't' then
        match expect ['r', 'u', 'e'] rest with
        | none => none
        | some rest1 => some (.bool true, rest1)
      else if c = 'f' then
        match expect ['a', 'l', 's', 'e'] rest with
        | none => none
        | some rest1 => some (.bool false, rest1)
      else if c = '"' then
        match parseStringBody rest with
        | none => none
        | some (s, rest1) => some (.str (String.mk s), rest1)
      else if c = '[' then
        match skipSpace rest with
        | [] => none
        | c1 :: rest1 =>
          if c1 = ']' then some (.arr [], rest1)
          else
            match parseElements fuel (c1 :: rest1) with
            | none => none
            | some (xs, rest2) => some (.arr xs, rest2)
      else if c = '{' then
        match skipSpace rest with
        | [] => none
        | c1 :: rest1 =>
          if c1 = '}' then some (.obj [], rest1)
          else
            match parseMembers fuel (c1 :: rest1) with
            | none => none
            | some (kvs, rest2) => some (.obj kvs, rest2)
      else
        match parseInt (c :: rest) with
        | none => none
        | some (n, rest1) => some (.num n, rest1)
/-- The elements of a non-empty array, up to the closing bracket. -/
def parseElements : Nat → List Char → Option (List Json × List Char)
  | 0, _ => none
  | fuel + 1, cs =>
    match parseValue fuel cs with
    | none => none
    | some (x, rest) =>
      match skipSpace rest with
      | [] => none
      | c :: rest1 =>
        if c = ']' then some ([x], rest1)
        else if c = ',' then
          match parseElements fuel rest1 with
          | none => none
          | some (xs, rest2) => some (x :: xs, rest2)
        else none
/-- The members of a non-empty object, up to the closing brace. -/
def parseMembers : Nat → List Char → Option (List (String × Json) × List Char)
  | 0, _ => none
  | fuel + 1, cs =>
    match skipSpace cs with
    | [] => none
    | q :: rest =>
      if q = '"' then
        match parseStringBody rest with
        | none => none
        | some (k, rest1) =>
          match skipSpace rest1 with
          | [] => none
          | c :: rest2 =>
            if c = ':' then
              match parseValue fuel rest2 with
              | none => none
              | some (v, rest3) =>
                match skipSpace rest3 with
                | [] => none
                | c1 :: rest4 =>
                  if c1 = '}' then some ([(String.mk k, v)], rest4)
                  else if c1 = ',' then
                    match parseMembers fuel rest4 with
                    | none => none
                    | some (kvs, rest5) => some ((String.mk k, v) :: kvs, rest5)
                  else none
            else none
      else none
end

/-- The JSON value a text denotes: one value, with nothing but white space after it. -/
def parseJson (s : String) : Option Json :=
  match parseValue (s.length + 1) s.data with
  | none => none
  | some (j, rest) =>
    match skipSpace rest with
    | [] => some j
    | _ :: _ => none

mutual
/-- The number of nested calls that reading a value takes at most. -/
def Json.size : Json → Nat
  | .null => 1
  | .bool _ => 1
  | .num _ => 1
  | .str _ => 1
  | .arr xs => 1 + Json.sizeList xs
  | .obj kvs => 1 + Json.sizeMembers kvs
/-- The number of nested calls that reading the elements of an array takes at most. -/
def Json.sizeList : List Json → Nat
  | [] => 0
  | x :: xs => 1 + Json.size x + Json.sizeList xs
/-- The number of nested calls that reading the members of an object takes at most. -/
def Json.sizeMembers : List (String × Json) → Nat
  | [] => 0
  | (_, v) :: kvs => 1 + Json.size v + Json.sizeMembers kvs
end

/-- A text that does not continue a number: it does not start with a digit. -/
def NoDigitHead (rest : List Char) : Prop :=
  ∀ c cs, rest = c :: cs → digitValue c = none

/-- The characters with which an integer starts. -/
def NumberHead (c : Char) : Prop :=
  c = '-' ∨ ∃ d, digitValue c = some d

/-! ## The Pulumi SDK as seen from `ecs.go`

Only the argument fields that `ecs.go` sets and the outputs that it reads are modelled; every
other argument field is left unset by the source.  A resource output (`ID()`, `Arn`, `Name`)
is the value the backend resolves it to. -/

structure KeyArgs where
  Description : Option String
  DeletionWindowInDays : Option Int
deriving DecidableEq

/-- The handle `*kms.Key`. -/
structure Key where
  ID : String
  Arn : String
deriving DecidableEq

/-- The arguments `*cloudwatch.LogGroupArgs`; `ecs.go` passes nil. -/
structure LogGroupArgs where
deriving DecidableEq

/-- The handle `*cloudwatch.LogGroup`. -/
structure LogGroup where
  ID : String
  Name : String
deriving DecidableEq

structure ClusterConfigurationExecuteCommandConfigurationLogConfigurationArgs where
  CloudWatchEncryptionEnabled : Option Bool
  CloudWatchLogGroupName : Option String
deriving DecidableEq

structure ClusterConfigurationExecuteCommandConfigurationArgs where
  KmsKeyId : Option String
  Logging : Option String
  LogConfiguration : Option ClusterConfigurationExecuteCommandConfigurationLogConfigurationArgs
deriving DecidableEq

structure ClusterConfigurationArgs where
  ExecuteCommandConfiguration : Option ClusterConfigurationExecuteCommandConfigurationArgs
deriving DecidableEq

structure ClusterSettingArgs where
  Name : String
  Value : String
deriving DecidableEq

structure ClusterArgs where
  Configuration : Option ClusterConfigurationArgs
  Settings : Option (List ClusterSettingArgs)
deriving DecidableEq

/-- The handle `*ecs.Cluster`. -/
structure Cluster where
  ID : String
deriving DecidableEq

structure RoleArgs where
  AssumeRolePolicy : String
deriving DecidableEq

/-- The handle `*iam.Role`. -/
structure Role where
  ID : String
  Name : String
deriving DecidableEq

structure RolePolicyAttachmentArgs where
  Role : String
  PolicyArn : String
deriving DecidableEq

/-- The handle `*iam.RolePolicyAttachment`. -/
structure RolePolicyAttachment where
  ID : String
deriving DecidableEq

/-- What a run asks of the backend: the five resource creations and the stack export. -/
inductive Event where
  | NewKey (name : String) (args : Option KeyArgs)
  | NewLogGroup (name : String) (args : Option LogGroupArgs)
  | NewCluster (name : String) (args : Option ClusterArgs)
  | NewRole (name : String) (args : Option RoleArgs)
  | NewRolePolicyAttachment (name : String) (args : Option RolePolicyAttachmentArgs)
  | Export (name : String) (value : String)
deriving DecidableEq

/-- The name under which an export writes, for an export. -/
def Event.exportName? : Event → Option String
  | .Export name _ => some name
  | _ => none

/-- The kinds of request. -/
inductive Kind where
  | key | logGroup | cluster | role | policyAttachment | export
deriving DecidableEq, Repr

/-- The kind of a request. -/
def Event.kind : Event → Kind
  | .NewKey _ _ => .key
  | .NewLogGroup _ _ => .logGroup
  | .NewCluster _ _ => .cluster
  | .NewRole _ _ => .role
  | .NewRolePolicyAttachment _ _ => .policyAttachment
  | .Export _ _ => .export

/-- Whether an event is a resource creation (and not an export). -/
def Event.isCreation : Event → Bool
  | .Export _ _ => false
  | _ => true

/-- The state of `*pulumi.Context` that a run can change: the requests made so far, oldest
first. -/
structure Context where
  events : List Event
deriving DecidableEq

/-- The answers of the provisioning backend to the creation calls.  An answer may depend on
the context, that is on everything requested before. -/
structure Backend where
  NewKey : Context → String → Option KeyArgs → Except Error Key
  NewLogGroup : Context → String → Option LogGroupArgs → Except Error LogGroup
  NewCluster : Context → String → Option ClusterArgs → Except Error Cluster
  NewRole : Context → String → Option RoleArgs → Except Error Role
  NewRolePolicyAttachment :
    Context → String → Option RolePolicyAttachmentArgs → Except Error RolePolicyAttachment

/-- The context after one more request. -/
def Context.record (ctx : Context) (ev : Event) : Context :=
  ⟨ctx.events ++ [ev]⟩

/-- The call `ctx.Export(name, value)`. -/
def Context.Export (ctx : Context) (name : String) (value : String) : Context :=
  ctx.record (.Export name value)

/-- The call `kms.NewKey(ctx, name, args)`. -/
def kms.NewKey (b : Backend) (ctx : Context) (name : String) (args : Option KeyArgs) :
    Context × Except Error Key :=
  (ctx.record (.NewKey name args), b.NewKey ctx name args)

/-- The call `cloudwatch.NewLogGroup(ctx, name, args)`. -/
def cloudwatch.NewLogGroup (b : Backend) (ctx : Context) (name : String)
    (args : Option LogGroupArgs) : Context × Except Error LogGroup :=
  (ctx.record (.NewLogGroup name args), b.NewLogGroup ctx name args)

/-- The call `ecs.NewCluster(ctx, name, args)`. -/
def ecs.NewCluster (b : Backend) (ctx : Context) (name : String) (args : Option ClusterArgs) :
    Context × Except Error Cluster :=
  (ctx.record (.NewCluster name args), b.NewCluster ctx name args)

/-- The call `iam.NewRole(ctx, name, args)`. -/
def iam.NewRole (b : Backend) (ctx : Context) (name : String) (args : Option RoleArgs) :
    Context × Except Error Role :=
  (ctx.record (.NewRole name args), b.NewRole ctx name args)

/-- The call `iam.NewRolePolicyAttachment(ctx, name, args)`. -/
def iam.NewRolePolicyAttachment (b : Backend) (ctx : Context) (name : String)
    (args : Option RolePolicyAttachmentArgs) : Context × Except Error RolePolicyAttachment :=
  (ctx.record (.NewRolePolicyAttachment name args), b.NewRolePolicyAttachment ctx name args)

/-! ## The data model and the methods of `ecs.go` -/

/-- The anonymous struct type of the field `ECS.Out`. -/
structure ECSOut where
  Cluster : Option Cluster
  TaskExecRole : Option Role
deriving DecidableEq

structure ECS where
  Name : String
  EnableLogging : Bool
  Out : ECSOut
deriving DecidableEq

/-- The method `(*ECS).Validate`. -/
def ECS.Validate (e : ECS) : Option Error :=
  if e.Name = "" then some (Errorf "missing ECS.Name") else none

/-- The trust policy document passed to `iam.NewRole`, a raw string literal of `ecs.go`. -/
def assumeRolePolicy : String :=
  "\x7b\n\t\t\t\t\"Version\": \"2008-10-17\",\n\t\t\t\t\"Statement\": [\x7b\n\t\t\t\t\t\"Sid\": \"\",\n\t\t\t\t\t\"Effect\": \"Allow\",\n\t\t\t\t\t\"Principal\": \x7b\n\t\t\t\t\t\t\"Service\": \"ecs-tasks.amazonaws.com\"\n\t\t\t\t\t\x7d,\n\t\t\t\t\t\"Action\": \"sts:AssumeRole\"\n\t\t\t\t\x7d]\n\t\t\t\x7d"

/-- The arguments of the cluster created when logging is enabled. -/
def loggingClusterArgs (logKey : Key) (logGroup : LogGroup) : ClusterArgs :=
  { Configuration := some
      { ExecuteCommandConfiguration := some
          { KmsKeyId := some logKey.Arn
            Logging := some "OVERRIDE"
            LogConfiguration := some
              { CloudWatchEncryptionEnabled := some true
                CloudWatchLogGroupName := some logGroup.Name } } }
    Settings := none }

/-- The arguments of the cluster created when logging is disabled. -/
def plainClusterArgs : ClusterArgs :=
  { Configuration := none
    Settings := some [{ Name := "containerInsights", Value := "enabled" }] }

/-- The arguments of the KMS key. -/
def logKeyArgs (e : ECS) : KeyArgs :=
  { Description := some (e.Name ++ " KMS encryption key for logging container activity")
    DeletionWindowInDays := some 7 }

/-- The arguments of the IAM role. -/
def taskExecRoleArgs : RoleArgs :=
  { AssumeRolePolicy := assumeRolePolicy }

/-- The arguments of the policy attachment. -/
def taskExecPolicyArgs (taskExecRole : Role) : RolePolicyAttachmentArgs :=
  { Role := taskExecRole.Name
    PolicyArn := "arn:aws:iam::aws:policy/service-role/AmazonECSTaskExecutionRolePolicy" }

/-- The first part of `(*ECS).Run` after validation: the `if e.EnableLogging` statement, which
assigns `cluster` or returns an error. -/
def ECS.createCluster (b : Backend) (e : ECS) (ctx : Context) : Context × Except Error Cluster :=
  if e.EnableLogging then
    match kms.NewKey b ctx (e.Name ++ "-log-key") (some (logKeyArgs e)) with
    | (ctx, .error err) => (ctx, .error err)
    | (ctx, .ok logKey) =>
      let ctx := ctx.Export "CLUSTER-LOG-KMS-KEY-ID" logKey.ID
      match cloudwatch.NewLogGroup b ctx (e.Name ++ "-log-group") none with
      | (ctx, .error err) => (ctx, .error err)
      | (ctx, .ok logGroup) =>
        let ctx := ctx.Export "CLUSTER-LOG-GROUP-ID" logGroup.ID
        ecs.NewCluster b ctx e.Name (some (loggingClusterArgs logKey logGroup))
  else
    ecs.NewCluster b ctx e.Name (some plainClusterArgs)

/-- The method `(*ECS).Run`: the receiver and the context as the method leaves them, and the
returned error. -/
def ECS.Run (b : Backend) (e : ECS) (ctx : Context) : ECS × Context × Option Error :=
  match e.Validate with
  | some err => (e, ctx, some err)
  | none =>
    match e.createCluster b ctx with
    | (ctx, .error err) => (e, ctx, some err)
    | (ctx, .ok cluster) =>
      let e : ECS := { e with Out := { e.Out with Cluster := some cluster } }
      let ctx := ctx.Export "CLUSTER-ID" cluster.ID
      match iam.NewRole b ctx (e.Name ++ "-task-exec-role") (some taskExecRoleArgs) with
      | (ctx, .error err) => (e, ctx, some err)
      | (ctx, .ok taskExecRole) =>
        let e : ECS := { e with Out := { e.Out with TaskExecRole := some taskExecRole } }
        match iam.NewRolePolicyAttachment b ctx (e.Name ++ "-task-exec-policy")
            (some (taskExecPolicyArgs taskExecRole)) with
        | (ctx, .error err) => (e, ctx, some err)
        | (ctx, .ok _) => (e, ctx, none)

def sampleLog : ContainerLogConfig :=
  ⟨"awslogs", .nil, some [("awslogs-region", .str "eu-west-1"), ("awslogs-group", .str "<demo>")]⟩

def sampleDef : ContainerDefinition :=
  ⟨"web", "nginx:1.25", some [⟨80, -1, "tcp"⟩], none, some sampleLog, none, none⟩

/-- A backend that accepts every request and derives the outputs from the resource name. -/
def sampleBackend : Backend where
  NewKey := fun _ name _ => .ok ⟨name ++ "-id", "arn:aws:kms:" ++ name⟩
  NewLogGroup := fun _ name _ => .ok ⟨name ++ "-id", name ++ "-0a1b2c3"⟩
  NewCluster := fun _ name _ => .ok ⟨name ++ "-id"⟩
  NewRole := fun _ name _ => .ok ⟨name ++ "-id", name ++ "-4d5e6f7"⟩
  NewRolePolicyAttachment := fun _ name _ => .ok ⟨name ++ "-id"⟩

/-! ## Properties stated by the specification -/

/-- The effect of `Validate` on the fields of a definition, as the specification states it:
a nil `PortMappings` or `Environment` has become the empty sequence and everything else is
as before. -/
def NormalisedBy (d d1 : ContainerDefinition) : Prop :=
  (d.PortMappings = none → d1.PortMappings = some []) ∧
  (d.Environment = none → d1.Environment = some []) ∧
  (∀ xs, d.PortMappings = some xs → d1.PortMappings = some xs) ∧
  (∀ xs, d.Environment = some xs → d1.Environment = some xs) ∧
  d1.Name = d.Name ∧ d1.Image = d.Image ∧ d1.LogConfiguration = d.LogConfiguration ∧
  d1.DockerLabels = d.DockerLabels ∧ d1.LinuxParameters = d.LinuxParameters

/-- A definition with an empty name and nil sequences. -/
def unnamedDef : ContainerDefinition :=
  ⟨"", "nginx:1.25", none, none, some sampleLog, none, none⟩

/-- A definition without log configuration and with nil sequences. -/
def unloggedDef : ContainerDefinition :=
  ⟨"web", "nginx:1.25", none, none, none, some [("team", "infra")], none⟩

/-- The error with which the backend answers a request made in a context, if it does;
an export has no answer. -/
def Backend.failure (b : Backend) (ctx : Context) : Event → Option Error
  | .NewKey name args =>
    match b.NewKey ctx name args with
    | .ok _ => none
    | .error err => some err
  | .NewLogGroup name args =>
    match b.NewLogGroup ctx name args with
    | .ok _ => none
    | .error err => some err
  | .NewCluster name args =>
    match b.NewCluster ctx name args with
    | .ok _ => none
    | .error err => some err
  | .NewRole name args =>
    match b.NewRole ctx name args with
    | .ok _ => none
    | .error err => some err
  | .NewRolePolicyAttachment name args =>
    match b.NewRolePolicyAttachment ctx name args with
    | .ok _ => none
    | .error err => some err
  | .Export _ _ => none

/-- A backend whose creation calls all succeed. -/
def Backend.AllSucceed (b : Backend) : Prop :=
  (∀ ctx name args, ∃ r, b.NewKey ctx name args = .ok r) ∧
  (∀ ctx name args, ∃ r, b.NewLogGroup ctx name args = .ok r) ∧
  (∀ ctx name args, ∃ r, b.NewCluster ctx name args = .ok r) ∧
  (∀ ctx name args, ∃ r, b.NewRole ctx name args = .ok r) ∧
  (∀ ctx name args, ∃ r, b.NewRolePolicyAttachment ctx name args = .ok r)

/-- The context extended by further requests. -/
def Context.extend (ctx : Context) (evs : List Event) : Context :=
  ⟨ctx.events ++ evs⟩

/-- The requests of a complete run with logging enabled, given the handles the backend
returned: key, export, log group, export, cluster, export, role, policy attachment. -/
def loggingSequence (e : ECS) (logKey : Key) (logGroup : LogGroup) (cluster : Cluster)
    (role : Role) : List Event :=
  [.NewKey (e.Name ++ "-log-key")
     (some { Description := some (e.Name ++ " KMS encryption key for logging container activity")
             DeletionWindowInDays := some 7 }),
   .Export "CLUSTER-LOG-KMS-KEY-ID" logKey.ID,
   .NewLogGroup (e.Name ++ "-log-group") none,
   .Export "CLUSTER-LOG-GROUP-ID" logGroup.ID,
   .NewCluster e.Name
     (some { Configuration := some
               { ExecuteCommandConfiguration := some
                   { KmsKeyId := some logKey.Arn
                     Logging := some "OVERRIDE"
                     LogConfiguration := some
                       { CloudWatchEncryptionEnabled := some true
                         CloudWatchLogGroupName := some logGroup.Name } } }
             Settings := none }),
   .Export "CLUSTER-ID" cluster.ID,
   .NewRole (e.Name ++ "-task-exec-role") (some { AssumeRolePolicy := assumeRolePolicy }),
   .NewRolePolicyAttachment (e.Name ++ "-task-exec-policy")
     (some { Role := role.Name
             PolicyArn := "arn:aws:iam::aws:policy/service-role/AmazonECSTaskExecutionRolePolicy" })]

/-- The requests of a complete run with logging disabled: cluster, export, role, policy
attachment. -/
def plainSequence (e : ECS) (cluster : Cluster) (role : Role) : List Event :=
  [.NewCluster e.Name
     (some { Configuration := none
             Settings := some [{ Name := "containerInsights", Value := "enabled" }] }),
   .Export "CLUSTER-ID" cluster.ID,
   .NewRole (e.Name ++ "-task-exec-role") (some { AssumeRolePolicy := assumeRolePolicy }),
   .NewRolePolicyAttachment (e.Name ++ "-task-exec-policy")
     (some { Role := role.Name
             PolicyArn := "arn:aws:iam::aws:policy/service-role/AmazonECSTaskExecutionRolePolicy" })]

/-- The requests of a complete run: the full sequence of the specification. -/
def fullSequence (e : ECS) (logKey : Key) (logGroup : LogGroup) (cluster : Cluster)
    (role : Role) : List Event :=
  if e.EnableLogging then loggingSequence e logKey logGroup cluster role
  else plainSequence e cluster role

/-- A backend that accepts every request except the creation of the log group. -/
def noLogGroupBackend : Backend :=
  { sampleBackend with NewLogGroup := fun _ _ _ => .error ⟨"AccessDenied: logs:CreateLogGroup"⟩ }

def demoLogging : ECS := ⟨"demo", true, ⟨none, none⟩⟩

def demoPlain : ECS := ⟨"demo", false, ⟨none, none⟩⟩

def unnamedCluster : ECS := ⟨"", true, ⟨some ⟨"old-cluster"⟩, none⟩⟩

/-- A run that met no failure: the requests issued are the whole full sequence and the
backend answered none of them with an error. -/
def CompletesWithoutFailure (b : Backend) (e : ECS) (ctx : Context) : Prop :=
  ∃ logKey logGroup cluster role,
    (e.Run b ctx).2.1.events = ctx.events ++ fullSequence e logKey logGroup cluster role ∧
    ∀ i c1, (fullSequence e logKey logGroup cluster role)[i]? = some c1 →
      b.failure (ctx.extend ((fullSequence e logKey logGroup cluster role).take i)) c1 = none

/-- The statement of claim C6 for one run: the requests issued are the first `n + 1` of the
full sequence, the last of them is a creation that the backend answered with the error
returned, and every request before it went through. -/
def StopsAtFirstFailure (b : Backend) (e : ECS) (ctx : Context) (err : Error) : Prop :=
  ∃ n logKey logGroup cluster role c,
    (fullSequence e logKey logGroup cluster role)[n]? = some c ∧
    c.isCreation = true ∧
    (e.Run b ctx).2.1.events =
      ctx.events ++ (fullSequence e logKey logGroup cluster role).take (n + 1) ∧
    b.failure (ctx.extend ((fullSequence e logKey logGroup cluster role).take n)) c = some err ∧
    ∀ i c1, i < n → (fullSequence e logKey logGroup cluster role)[i]? = some c1 →
      b.failure (ctx.extend ((fullSequence e logKey logGroup cluster role).take i)) c1 = none

/-- The member names of the JSON object of a definition, in the order of the struct fields;
`linuxParameters` only when the pointer is set. -/
def memberNames (d : ContainerDefinition) : List String :=
  ["name", "image", "portMappings", "environment", "logConfiguration", "dockerLabels"] ++
    match d.LinuxParameters with
    | none => []
    | some _ => ["linuxParameters"]

/-- The value of the first member with a given name. -/
def lookupMember (k : String) : List (String × Json) → Option Json
  | [] => none
  | (k1, v) :: kvs => if k1 = k then some v else lookupMember k kvs

/-- The serialization contract of the specification for one definition: `String()` is `[`,
the text of a JSON object with the member names of the struct, `]`, and it reads back as an
array of exactly that one object. -/
def EncodesAsSingleton (d : ContainerDefinition) : Prop :=
  ∃ members,
    d.String = "[" ++ String.mk (Json.obj members).render ++ "]" ∧
    members.map Prod.fst = memberNames d ∧
    parseJson d.String = some (.arr [.obj members])

/-- The part of the omission semantics of the specification that holds of the text written
for a definition `d` once validated: the text is an array of one object, in which
`linuxParameters` is absent exactly when the pointer is nil, the six other keys are present,
and `portMappings` and `environment` are the empty array when `d` did not supply them. -/
def OmissionSemantics (d : ContainerDefinition) (text : String) : Prop :=
  ∃ members,
    parseJson text = some (.arr [.obj members]) ∧
    (lookupMember "linuxParameters" members = none ↔ d.LinuxParameters = none) ∧
    (∀ k ∈ ["name", "image", "portMappings", "environment", "logConfiguration", "dockerLabels"],
      lookupMember k members ≠ none) ∧
    (d.PortMappings = none → lookupMember "portMappings" members = some (.arr [])) ∧
    (d.Environment = none → lookupMember "environment" members = some (.arr []))

/-- The omission semantics of the specification as it is written: as above, and `dockerLabels`
is the empty object when `d` did not supply the map. -/
def OmissionSemanticsWithLabels (d : ContainerDefinition) (text : String) : Prop :=
  ∃ members,
    parseJson text = some (.arr [.obj members]) ∧
    (lookupMember "linuxParameters" members = none ↔ d.LinuxParameters = none) ∧
    (∀ k ∈ ["name", "image", "portMappings", "environment", "logConfiguration", "dockerLabels"],
      lookupMember k members ≠ none) ∧
    (d.PortMappings = none → lookupMember "portMappings" members = some (.arr [])) ∧
    (d.Environment = none → lookupMember "environment" members = some (.arr [])) ∧
    (d.DockerLabels = none → lookupMember "dockerLabels" members = some (.obj []))

/-- A definition that passes `Validate` and whose secret options hold a channel. -/
def chanDef : ContainerDefinition :=
  ⟨"web", "nginx:1.25", none, none, some ⟨"awslogs", .chan, none⟩, none, none⟩

/-- A definition that passes `Validate` and supplies no sequences, labels or parameters. -/
def bareDef : ContainerDefinition :=
  ⟨"web", "nginx:1.25", none, none, some ⟨"awslogs", .nil, none⟩, none, none⟩

/-! ## Reading back the text of a JSON value -/

theorem digitValue_digitChar : ∀ d, d < 10 → digitValue (Nat.digitChar d) = some d := by
  decide

theorem hexValue_hexDigit : ∀ k, k < 16 → hexValue (hexDigit k) = some k := by
  decide

theorem parseDigits_natDigits (fuel : Nat) : ∀ (n acc : Nat) (rest : List Char), n < fuel →
    parseDigits acc (natDigits fuel n ++ rest) =
      parseDigits (acc * 10 ^ (natDigits fuel n).length + n) rest := by
  induction fuel with
  | zero => intro n acc rest h; omega
  | succ fuel ih =>
    intro n acc rest h
    by_cases hn : n < 10
    · simp only [natDigits, hn, if_true, List.singleton_append, List.length_singleton, pow_one,
        parseDigits, digitValue_digitChar n hn]
      congr 1
      omega
    · have hlt : n / 10 < fuel := by omega
      simp only [natDigits, hn, if_false, List.append_assoc, List.singleton_append,
        List.length_append, List.length_singleton]
      rw [ih (n / 10) acc _ hlt]
      simp only [parseDigits, digitValue_digitChar (n % 10) (Nat.mod_lt _ (by decide))]
      congr 1
      rw [pow_succ]
      have := Nat.div_add_mod n 10
      nlinarith [this]

theorem parseDigits_stop (acc : Nat) (rest : List Char) (h : NoDigitHead rest) :
    parseDigits acc rest = (acc, rest) := by
  cases rest with
  | nil => rfl
  | cons c cs => simp [parseDigits, h c cs rfl]

theorem natDigits_head (fuel : Nat) : ∀ n, 0 < n → n < fuel →
    ∃ c cs d, natDigits fuel n = c :: cs ∧ digitValue c = some d ∧ d ≠ 0 := by
  induction fuel with
  | zero => intro n _ h; omega
  | succ fuel ih =>
    intro n hpos h
    by_cases hn : n < 10
    · exact ⟨Nat.digitChar n, [], n, by simp [natDigits, hn], digitValue_digitChar n hn, by omega⟩
    · obtain ⟨c, cs, d, h1, h2, h3⟩ := ih (n / 10) (by omega) (by omega)
      exact ⟨c, cs ++ [Nat.digitChar (n % 10)], d, by simp [natDigits, hn, h1], h2, h3⟩

theorem parseNat_renderNat (n : Nat) (rest : List Char) (h : NoDigitHead rest) :
    parseNat (renderNat n ++ rest) = some (n, rest) := by
  by_cases h0 : n = 0
  · subst h0
    rfl
  · obtain ⟨c, cs, d, h1, h2, h3⟩ := natDigits_head (n + 1) n (by omega) (by omega)
    have key := parseDigits_natDigits (n + 1) n 0 rest (by omega)
    rw [h1] at key
    simp only [List.cons_append, parseDigits, h2, Nat.mul_zero, Nat.zero_add, zero_mul] at key
    have key1 : parseDigits d (cs ++ rest) = parseDigits n rest := key
    simp only [renderNat, h1, List.cons_append, parseNat, h2, h3, if_false]
    rw [key1, parseDigits_stop n rest h]

theorem renderNat_head (n : Nat) : ∃ c cs d, renderNat n = c :: cs ∧ digitValue c = some d := by
  by_cases h0 : n = 0
  · subst h0
    exact ⟨'0', [], 0, rfl, rfl⟩
  · obtain ⟨c, cs, d, h1, h2, _⟩ := natDigits_head (n + 1) n (by omega) (by omega)
    exact ⟨c, cs, d, h1, h2⟩

theorem digitValue_ne {c : Char} {d : Nat} (h : digitValue c = some d) (x : Char)
    (hx : digitValue x = none) : c ≠ x := by
  rintro rfl
  rw [hx] at h
  cases h

theorem parseInt_renderInt (i : Int) (rest : List Char) (h : NoDigitHead rest) :
    parseInt (renderInt i ++ rest) = some (i, rest) := by
  cases i with
  | ofNat n =>
    obtain ⟨c, cs, d, h1, h2⟩ := renderNat_head n
    have hc : c ≠ '-' := digitValue_ne h2 '-' rfl
    have key := parseNat_renderNat n rest h
    rw [h1] at key
    simp only [List.cons_append] at key
    simp only [renderInt, h1, List.cons_append, parseInt, hc, if_false, key]
  | negSucc n =>
    simp only [renderInt, List.cons_append, parseInt, if_true, parseNat_renderNat (n + 1) rest h]
    rfl

theorem hexValue4_low (n : Nat) (h : n < 256) :
    hexValue4 '0' '0' (hexDigit (n / 16 % 16)) (hexDigit (n % 16)) = some n := by
  have h0 : hexValue '0' = some 0 := rfl
  simp only [hexValue4, h0, hexValue_hexDigit _ (Nat.mod_lt (n / 16) (by decide)),
    hexValue_hexDigit _ (Nat.mod_lt n (by decide)), Option.some.injEq]
  omega

theorem parseStringBody_cons (c : Char) (rest : List Char) (h1 : c ≠ '"') (h2 : c ≠ '\\')
    (h3 : ¬ c.toNat < 32) :
    parseStringBody (c :: rest) =
      match parseStringBody rest with
      | none => none
      | some (s, r) => some (c :: s, r) := by
  conv_lhs => unfold parseStringBody
  simp only [h1, h2, h3, if_false]

theorem parseStringBody_short (e c : Char) (rest : List Char) (he : e ≠ 'u')
    (hu : unescape e = some c) :
    parseStringBody ('\\' :: e :: rest) =
      match parseStringBody rest with
      | none => none
      | some (s, r) => some (c :: s, r) := by
  have hq : '\\' ≠ '"' := by decide
  conv_lhs => unfold parseStringBody
  simp only [hq, if_false, if_true, he, hu]

theorem parseStringBody_hex (h1 h2 h3 h4 : Char) (n : Nat) (rest : List Char)
    (hv : hexValue4 h1 h2 h3 h4 = some n) (hn : n.isValidChar) :
    parseStringBody ('\\' :: 'u' :: h1 :: h2 :: h3 :: h4 :: rest) =
      match parseStringBody rest with
      | none => none
      | some (s, r) => some (Char.ofNat n :: s, r) := by
  have hq : '\\' ≠ '"' := by decide
  conv_lhs => unfold parseStringBody
  simp only [hq, if_false, if_true, hv, hn]

theorem parseStringBody_escapeChar (c : Char) (rest : List Char) :
    parseStringBody (escapeChar c ++ rest) =
      match parseStringBody rest with
      | none => none
      | some (s, r) => some (c :: s, r) := by
  by_cases c1 : c = '"'
  · subst c1
    exact parseStringBody_short '"' '"' rest (by decide) rfl
  by_cases c2 : c = '\\'
  · subst c2
    exact parseStringBody_short '\\' '\\' rest (by decide) rfl
  by_cases c3 : c = '\n'
  · subst c3
    exact parseStringBody_short 'n' '\n' rest (by decide) rfl
  by_cases c4 : c = '\r'
  · subst c4
    exact parseStringBody_short 'r' '\r' rest (by decide) rfl
  by_cases c5 : c = '\t'
  · subst c5
    exact parseStringBody_short 't' '\t' rest (by decide) rfl
  by_cases c6 : c.toNat < 32 ∨ c = '<' ∨ c = '>' ∨ c = '&'
  · have hn : c.toNat < 256 := by
      rcases c6 with h | rfl | rfl | rfl
      · omega
      · decide
      · decide
      · decide
    have hv : c.toNat.isValidChar := Or.inl (by omega)
    have key := parseStringBody_hex '0' '0' (hexDigit (c.toNat / 16 % 16))
      (hexDigit (c.toNat % 16)) c.toNat rest (hexValue4_low _ hn) hv
    rw [Char.ofNat_toNat] at key
    simpa only [escapeChar, c1, c2, c3, c4, c5, c6, if_false, if_true, uEscape,
      List.cons_append, List.nil_append] using key
  by_cases c7 : c.toNat = 8232 ∨ c.toNat = 8233
  · have hv : c.toNat.isValidChar := Or.inl (by omega)
    have hx : hexValue4 '2' '0' (hexDigit (c.toNat / 16 % 16)) (hexDigit (c.toNat % 16)) =
        some c.toNat := by
      rcases c7 with h | h <;> rw [h] <;> rfl
    have key := parseStringBody_hex '2' '0' (hexDigit (c.toNat / 16 % 16))
      (hexDigit (c.toNat % 16)) c.toNat rest hx hv
    rw [Char.ofNat_toNat] at key
    simpa only [escapeChar, c1, c2, c3, c4, c5, c6, c7, if_false, if_true, uEscape,
      List.cons_append, List.nil_append] using key
  · have h32 : ¬ c.toNat < 32 := fun h => c6 (Or.inl h)
    simpa only [escapeChar, c1, c2, c3, c4, c5, c6, c7, if_false, List.cons_append,
      List.nil_append] using parseStringBody_cons c rest c1 c2 h32

theorem parseStringBody_escaped (cs rest : List Char) :
    parseStringBody (cs.flatMap escapeChar ++ '"' :: rest) = some (cs, rest) := by
  induction cs with
  | nil =>
    unfold parseStringBody
    simp
  | cons c cs ih =>
    rw [List.flatMap_cons, List.append_assoc, parseStringBody_escapeChar, ih]

theorem parseStringBody_renderString (s : String) (rest : List Char) :
    ∃ body, renderString s ++ rest = '"' :: body ∧ parseStringBody body = some (s.data, rest) := by
  refine ⟨s.data.flatMap escapeChar ++ '"' :: rest, ?_, parseStringBody_escaped _ _⟩
  simp [renderString]

theorem skipSpace_cons (c : Char) (cs : List Char) (h : isSpace c = false) :
    skipSpace (c :: cs) = c :: cs := by
  simp [skipSpace, h]

theorem parseValue_null (f : Nat) (rest : List Char) :
    parseValue (f + 1) ('n' :: 'u' :: 'l' :: 'l' :: rest) = some (.null, rest) := by
  unfold parseValue
  rw [skipSpace_cons _ _ (by decide)]
  simp [expect]

theorem parseValue_true (f : Nat) (rest : List Char) :
    parseValue (f + 1) ('t' :: 'r' :: 'u' :: 'e' :: rest) = some (.bool true, rest) := by
  unfold parseValue
  rw [skipSpace_cons _ _ (by decide)]
  simp [expect]

theorem parseValue_false (f : Nat) (rest : List Char) :
    parseValue (f + 1) ('f' :: 'a' :: 'l' :: 's' :: 'e' :: rest) = some (.bool false, rest) := by
  unfold parseValue
  rw [skipSpace_cons _ _ (by decide)]
  simp [expect]

theorem parseValue_string (f : Nat) (body s rest : List Char)
    (h : parseStringBody body = some (s, rest)) :
    parseValue (f + 1) ('"' :: body) = some (.str (String.mk s), rest) := by
  unfold parseValue
  rw [skipSpace_cons _ _ (by decide)]
  simp [h]

theorem parseValue_arr_nil (f : Nat) (rest : List Char) :
    parseValue (f + 1) ('[' :: ']' :: rest) = some (.arr [], rest) := by
  unfold parseValue
  rw [skipSpace_cons _ _ (by decide)]
  simp [skipSpace_cons ']' rest (by decide)]

theorem parseValue_arr_cons (f : Nat) (c : Char) (cs rest : List Char) (xs : List Json)
    (hs : isSpace c = false) (hc : c ≠ ']')
    (h : parseElements f (c :: cs) = some (xs, rest)) :
    parseValue (f + 1) ('[' :: c :: cs) = some (.arr xs, rest) := by
  unfold parseValue
  rw [skipSpace_cons _ _ (by decide)]
  simp [skipSpace_cons c cs hs, hc, h]

theorem parseValue_obj_nil (f : Nat) (rest : List Char) :
    parseValue (f + 1) ('{' :: '}' :: rest) = some (.obj [], rest) := by
  unfold parseValue
  rw [skipSpace_cons _ _ (by decide)]
  simp [skipSpace_cons '}' rest (by decide)]

theorem parseValue_obj_cons (f : Nat) (c : Char) (cs rest : List Char)
    (kvs : List (String × Json)) (hs : isSpace c = false) (hc : c ≠ '}')
    (h : parseMembers f (c :: cs) = some (kvs, rest)) :
    parseValue (f + 1) ('{' :: c :: cs) = some (.obj kvs, rest) := by
  unfold parseValue
  rw [skipSpace_cons _ _ (by decide)]
  simp [skipSpace_cons c cs hs, hc, h]

theorem NumberHead.not_space {c : Char} (h : NumberHead c) : isSpace c = false := by
  rcases h with rfl | ⟨d, hd⟩
  · decide
  · have h1 := digitValue_ne hd ' ' rfl
    have h2 := digitValue_ne hd '\t' rfl
    have h3 := digitValue_ne hd '\n' rfl
    have h4 := digitValue_ne hd '\r' rfl
    simp [isSpace, h1, h2, h3, h4]

theorem parseValue_num (f : Nat) (c : Char) (cs rest : List Char) (n : Int) (hc : NumberHead c)
    (h : parseInt (c :: cs) = some (n, rest)) :
    parseValue (f + 1) (c :: cs) = some (.num n, rest) := by
  have e1 : c ≠ 'n' := by rcases hc with rfl | ⟨d, hd⟩; decide; exact digitValue_ne hd _ rfl
  have e2 : c ≠ 't' := by rcases hc with rfl | ⟨d, hd⟩; decide; exact digitValue_ne hd _ rfl
  have e3 : c ≠ 'f' := by rcases hc with rfl | ⟨d, hd⟩; decide; exact digitValue_ne hd _ rfl
  have e4 : c ≠ '"' := by rcases hc with rfl | ⟨d, hd⟩; decide; exact digitValue_ne hd _ rfl
  have e5 : c ≠ '[' := by rcases hc with rfl | ⟨d, hd⟩; decide; exact digitValue_ne hd _ rfl
  have e6 : c ≠ '{' := by rcases hc with rfl | ⟨d, hd⟩; decide; exact digitValue_ne hd _ rfl
  unfold parseValue
  rw [skipSpace_cons _ _ hc.not_space]
  simp [e1, e2, e3, e4, e5, e6, h]

theorem parseElements_last (f : Nat) (cs rest : List Char) (x : Json)
    (h : parseValue f cs = some (x, ']' :: rest)) :
    parseElements (f + 1) cs = some ([x], rest) := by
  unfold parseElements
  simp [h, skipSpace_cons ']' rest (by decide)]

theorem parseElements_more (f : Nat) (cs rest1 rest : List Char) (x : Json) (xs : List Json)
    (h : parseValue f cs = some (x, ',' :: rest1))
    (h1 : parseElements f rest1 = some (xs, rest)) :
    parseElements (f + 1) cs = some (x :: xs, rest) := by
  unfold parseElements
  simp [h, skipSpace_cons ',' rest1 (by decide), h1]

theorem parseMembers_last (f : Nat) (body k rest1 rest : List Char) (v : Json)
    (hk : parseStringBody body = some (k, ':' :: rest1))
    (h : parseValue f rest1 = some (v, '}' :: rest)) :
    parseMembers (f + 1) ('"' :: body) = some ([(String.mk k, v)], rest) := by
  unfold parseMembers
  rw [skipSpace_cons _ _ (by decide)]
  simp [hk, skipSpace_cons ':' rest1 (by decide), h, skipSpace_cons '}' rest (by decide)]

theorem parseMembers_more (f : Nat) (body k rest1 rest2 rest : List Char) (v : Json)
    (kvs : List (String × Json))
    (hk : parseStringBody body = some (k, ':' :: rest1))
    (h : parseValue f rest1 = some (v, ',' :: rest2))
    (h1 : parseMembers f rest2 = some (kvs, rest)) :
    parseMembers (f + 1) ('"' :: body) = some ((String.mk k, v) :: kvs, rest) := by
  unfold parseMembers
  rw [skipSpace_cons _ _ (by decide)]
  simp [hk, skipSpace_cons ':' rest1 (by decide), h, skipSpace_cons ',' rest2 (by decide), h1]

theorem Json.size_pos (j : Json) : 0 < j.size := by
  cases j <;> simp [Json.size]

theorem NoDigitHead.nil : NoDigitHead [] := by
  intro c cs h
  cases h

theorem NoDigitHead.cons {c : Char} (h : digitValue c = none) (cs : List Char) :
    NoDigitHead (c :: cs) := by
  intro c1 cs1 h1
  cases h1
  exact h

theorem renderTail_head (xs : List Json) (rest : List Char) :
    ∃ c cs, Json.renderTail xs ++ rest = c :: cs ∧ (c = ']' ∨ c = ',') := by
  cases xs with
  | nil => exact ⟨']', rest, rfl, Or.inl rfl⟩
  | cons x xs => exact ⟨',', _, rfl, Or.inr rfl⟩

theorem renderMembers_head (kvs : List (String × Json)) (rest : List Char) :
    ∃ c cs, Json.renderMembers kvs ++ rest = c :: cs ∧ (c = '}' ∨ c = ',') := by
  cases kvs with
  | nil => exact ⟨'}', rest, rfl, Or.inl rfl⟩
  | cons x xs =>
    obtain ⟨k, v⟩ := x
    exact ⟨',', _, rfl, Or.inr rfl⟩

theorem renderTail_noDigit (xs : List Json) (rest : List Char) :
    NoDigitHead (Json.renderTail xs ++ rest) := by
  obtain ⟨c, cs, h, hc⟩ := renderTail_head xs rest
  rw [h]
  rcases hc with rfl | rfl <;> (apply NoDigitHead.cons; rfl)

theorem renderMembers_noDigit (kvs : List (String × Json)) (rest : List Char) :
    NoDigitHead (Json.renderMembers kvs ++ rest) := by
  obtain ⟨c, cs, h, hc⟩ := renderMembers_head kvs rest
  rw [h]
  rcases hc with rfl | rfl <;> (apply NoDigitHead.cons; rfl)

theorem renderInt_head (i : Int) : ∃ c cs, renderInt i = c :: cs ∧ NumberHead c := by
  cases i with
  | ofNat n =>
    obtain ⟨c, cs, d, h1, h2⟩ := renderNat_head n
    exact ⟨c, cs, h1, Or.inr ⟨d, h2⟩⟩
  | negSucc n => exact ⟨'-', _, rfl, Or.inl rfl⟩

/-- The first character of the text of a value: not white space, not a closing bracket. -/
theorem render_head (j : Json) :
    ∃ c cs, j.render = c :: cs ∧ isSpace c = false ∧ c ≠ ']' := by
  cases j with
  | null => exact ⟨_, _, rfl, by decide, by decide⟩
  | bool b =>
    cases b
    · exact ⟨_, _, rfl, by decide, by decide⟩
    · exact ⟨_, _, rfl, by decide, by decide⟩
  | num n =>
    obtain ⟨c, cs, h, hc⟩ := renderInt_head n
    refine ⟨c, cs, by simp [Json.render, h], hc.not_space, ?_⟩
    rcases hc with rfl | ⟨d, hd⟩
    · decide
    · exact digitValue_ne hd _ rfl
  | str s => exact ⟨'"', _, rfl, by decide, by decide⟩
  | arr xs =>
    cases xs with
    | nil => exact ⟨'[', _, rfl, by decide, by decide⟩
    | cons x xs => exact ⟨'[', _, rfl, by decide, by decide⟩
  | obj kvs =>
    cases kvs with
    | nil => exact ⟨'{', _, rfl, by decide, by decide⟩
    | cons kv kvs =>
      obtain ⟨k, v⟩ := kv
      exact ⟨'{', _, rfl, by decide, by decide⟩

/-- Reading back what was written, with enough calls allowed: a value, the elements of a
non-empty array, the members of a non-empty object. -/
theorem parse_render (fuel : Nat) :
    (∀ (j : Json) (rest : List Char), j.size ≤ fuel → NoDigitHead rest →
      parseValue fuel (j.render ++ rest) = some (j, rest)) ∧
    (∀ (x : Json) (xs : List Json) (rest : List Char), Json.sizeList (x :: xs) ≤ fuel →
      parseElements fuel (x.render ++ (Json.renderTail xs ++ rest)) = some (x :: xs, rest)) ∧
    (∀ (k : String) (v : Json) (kvs : List (String × Json)) (rest : List Char),
      Json.sizeMembers ((k, v) :: kvs) ≤ fuel →
      parseMembers fuel (renderString k ++ ':' :: (v.render ++ (Json.renderMembers kvs ++ rest)))
        = some ((k, v) :: kvs, rest)) := by
  induction fuel with
  | zero =>
    refine ⟨?_, ?_, ?_⟩
    · intro j rest h
      have := j.size_pos
      omega
    · intro x xs rest h
      simp only [Json.sizeList] at h
      omega
    · intro k v kvs rest h
      simp only [Json.sizeMembers] at h
      omega
  | succ f ih =>
    obtain ⟨ihV, ihE, ihM⟩ := ih
    refine ⟨?_, ?_, ?_⟩
    · intro j rest h hr
      cases j with
      | null => exact parseValue_null f rest
      | bool b =>
        cases b
        · exact parseValue_false f rest
        · exact parseValue_true f rest
      | num n =>
        obtain ⟨c, cs, hc, hh⟩ := renderInt_head n
        have key := parseInt_renderInt n rest hr
        simp only [Json.render]
        rw [hc] at key ⊢
        exact parseValue_num f c (cs ++ rest) rest n hh key
      | str s =>
        obtain ⟨body, hb, hp⟩ := parseStringBody_renderString s rest
        simp only [Json.render]
        rw [hb]
        exact parseValue_string f body s.data rest hp
      | arr xs =>
        cases xs with
        | nil => exact parseValue_arr_nil f rest
        | cons x xs =>
          simp only [Json.size] at h
          have hE := ihE x xs rest (by omega)
          obtain ⟨c, cs, hc, hs, hne⟩ := render_head x
          simp only [Json.render, List.cons_append, List.append_assoc]
          rw [hc] at hE ⊢
          exact parseValue_arr_cons f c _ rest (x :: xs) hs hne hE
      | obj kvs =>
        cases kvs with
        | nil => exact parseValue_obj_nil f rest
        | cons kv kvs =>
          obtain ⟨k, v⟩ := kv
          simp only [Json.size] at h
          have hM := ihM k v kvs rest (by omega)
          simp only [Json.render, List.cons_append, List.append_assoc]
          have hk : ∃ cs, renderString k = '"' :: cs := ⟨_, rfl⟩
          obtain ⟨cs, hk⟩ := hk
          rw [hk] at hM ⊢
          exact parseValue_obj_cons f '"' _ rest ((k, v) :: kvs) (by decide) (by decide) hM
    · intro x xs rest h
      simp only [Json.sizeList] at h
      have hx := ihV x (Json.renderTail xs ++ rest) (by omega) (renderTail_noDigit xs rest)
      cases xs with
      | nil => exact parseElements_last f _ rest x hx
      | cons y ys =>
        have hys := ihE y ys rest (by omega)
        simp only [Json.renderTail, List.cons_append, List.append_assoc] at hx ⊢
        exact parseElements_more f _ _ rest x (y :: ys) hx hys
    · intro k v kvs rest h
      simp only [Json.sizeMembers] at h
      have hv := ihV v (Json.renderMembers kvs ++ rest) (by omega) (renderMembers_noDigit kvs rest)
      obtain ⟨body, hb, hp⟩ := parseStringBody_renderString k
        (':' :: (v.render ++ (Json.renderMembers kvs ++ rest)))
      rw [hb]
      cases kvs with
      | nil => exact parseMembers_last f body k.data _ rest v hp hv
      | cons kv kvs =>
        obtain ⟨k1, v1⟩ := kv
        have hkvs := ihM k1 v1 kvs rest (by omega)
        simp only [Json.renderMembers, List.cons_append, List.append_assoc] at hv hp
        exact parseMembers_more f body k.data _ _ rest v ((k1, v1) :: kvs) hp hv hkvs

theorem renderInt_length (i : Int) : 1 ≤ (renderInt i).length := by
  obtain ⟨c, cs, h, _⟩ := renderInt_head i
  simp [h]

theorem size_le_length (n : Nat) :
    (∀ j : Json, j.size ≤ n → j.size ≤ j.render.length) ∧
    (∀ xs : List Json, Json.sizeList xs ≤ n →
      Json.sizeList xs + 1 ≤ (Json.renderTail xs).length) ∧
    (∀ kvs : List (String × Json), Json.sizeMembers kvs ≤ n →
      Json.sizeMembers kvs + 1 ≤ (Json.renderMembers kvs).length) := by
  induction n with
  | zero =>
    refine ⟨?_, ?_, ?_⟩
    · intro j h
      have := j.size_pos
      omega
    · intro xs h
      cases xs with
      | nil => simp [Json.sizeList, Json.renderTail]
      | cons x xs => simp only [Json.sizeList] at h; omega
    · intro kvs h
      cases kvs with
      | nil => simp [Json.sizeMembers, Json.renderMembers]
      | cons kv kvs => obtain ⟨k, v⟩ := kv; simp only [Json.sizeMembers] at h; omega
  | succ n ih =>
    obtain ⟨ihV, ihE, ihM⟩ := ih
    refine ⟨?_, ?_, ?_⟩
    · intro j h
      cases j with
      | null => simp [Json.size, Json.render]
      | bool b => cases b <;> simp [Json.size, Json.render]
      | num i => simpa [Json.size, Json.render] using renderInt_length i
      | str s => simp [Json.size, Json.render, renderString]
      | arr xs =>
        cases xs with
        | nil => simp [Json.size, Json.sizeList, Json.render]
        | cons x xs =>
          simp only [Json.size, Json.sizeList] at h ⊢
          have h1 := ihV x (by omega)
          have h2 := ihE xs (by omega)
          simp only [Json.render, List.length_cons, List.length_append]
          omega
      | obj kvs =>
        cases kvs with
        | nil => simp [Json.size, Json.sizeMembers, Json.render]
        | cons kv kvs =>
          obtain ⟨k, v⟩ := kv
          simp only [Json.size, Json.sizeMembers] at h ⊢
          have h1 := ihV v (by omega)
          have h2 := ihM kvs (by omega)
          simp only [Json.render, List.length_cons, List.length_append]
          omega
    · intro xs h
      cases xs with
      | nil => simp [Json.sizeList, Json.renderTail]
      | cons x xs =>
        simp only [Json.sizeList] at h ⊢
        have h1 := ihV x (by omega)
        have h2 := ihE xs (by omega)
        simp only [Json.renderTail, List.length_cons, List.length_append]
        omega
    · intro kvs h
      cases kvs with
      | nil => simp [Json.sizeMembers, Json.renderMembers]
      | cons kv kvs =>
        obtain ⟨k, v⟩ := kv
        simp only [Json.sizeMembers] at h ⊢
        have h1 := ihV v (by omega)
        have h2 := ihM kvs (by omega)
        simp only [Json.renderMembers, List.length_cons, List.length_append]
        omega

/-- Reading the compact text of a JSON value gives the value back. -/
theorem parseJson_render (j : Json) : parseJson (String.mk j.render) = some j := by
  have hsize : j.size ≤ j.render.length + 1 := by
    have := (size_le_length j.size).1 j (le_refl _)
    omega
  have key := (parse_render (j.render.length + 1)).1 j [] hsize NoDigitHead.nil
  rw [List.append_nil] at key
  simp [parseJson, String.length, key, skipSpace]

/-! ## Theorems on `container.go` -/

theorem Validate_normalised (d : ContainerDefinition) (hn : d.Name ≠ "") (hi : d.Image ≠ "") :
    d.Validate.1 = { d with PortMappings := some (d.PortMappings.getD []),
                            Environment := some (d.Environment.getD []) } := by
  obtain ⟨n, i, pm, env, lc, dl, lp⟩ := d
  simp only at hn hi
  cases pm <;> cases env <;> cases lc <;> simp [ContainerDefinition.Validate, hn, hi]

theorem Validate_ok_fields (d : ContainerDefinition) (h : d.Validate.2 = none) :
    d.Name ≠ "" ∧ d.Image ≠ "" := by
  by_cases hn : d.Name = ""
  · simp [ContainerDefinition.Validate, hn] at h
  · by_cases hi : d.Image = ""
    · simp [ContainerDefinition.Validate, hn, hi] at h
    · exact ⟨hn, hi⟩

/-- Claim C1: `Validate` returns an error exactly when `Name` is empty, `Image` is empty or
`LogConfiguration` is nil; an empty `Name` gives the missing-name error whatever the other
fields are, an empty `Image` under a non-empty `Name` the missing-image error, a nil
`LogConfiguration` under both non-empty the missing-log-configuration error; and after a
successful `Validate` the log configuration is present. -/
theorem Validate_error_iff (d : ContainerDefinition) :
    (d.Validate.2 ≠ none ↔ (d.Name = "" ∨ d.Image = "" ∨ d.LogConfiguration = none)) ∧
    (d.Name = "" → d.Validate.2 = some (Errorf "missing ContainerDefinition.Name")) ∧
    (d.Name ≠ "" → d.Image = "" →
      d.Validate.2 = some (Errorf "missing ContainerDefinition.Image")) ∧
    (d.Name ≠ "" → d.Image ≠ "" → d.LogConfiguration = none →
      d.Validate.2 = some (Errorf "missing ContainerDefinition.LogConfiguration")) ∧
    (d.Validate.2 = none →
      d.LogConfiguration ≠ none ∧ d.Validate.1.LogConfiguration ≠ none) := by
  obtain ⟨n, i, pm, env, lc, dl, lp⟩ := d
  by_cases hn : n = "" <;> by_cases hi : i = "" <;>
    cases pm <;> cases env <;> cases lc <;> simp [ContainerDefinition.Validate, hn, hi]

/-- Claim C2, the statement as written, fails: on a definition with an empty name `Validate`
returns before the substitution and the nil sequences stay nil. -/
theorem Validate_normalises_counterexample : ¬ NormalisedBy unnamedDef unnamedDef.Validate.1 := by
  intro h
  have h1 := h.1 rfl
  simp [unnamedDef, ContainerDefinition.Validate] at h1

/-- Claim C2, amended: for a definition with non-empty `Name` and `Image`, after `Validate` a
nil `PortMappings` or `Environment` is the empty non-nil sequence and every other field, and
every non-nil sequence, is unchanged. -/
theorem Validate_normalises (d : ContainerDefinition) (hn : d.Name ≠ "") (hi : d.Image ≠ "") :
    NormalisedBy d d.Validate.1 := by
  rw [Validate_normalised d hn hi]
  refine ⟨?_, ?_, ?_, ?_, rfl, rfl, rfl, rfl, rfl⟩
  · intro h; simp [h]
  · intro h; simp [h]
  · intro xs h; simp [h]
  · intro xs h; simp [h]

/-- The amended claim C2 on a definition with nil sequences and no log configuration. -/
theorem Validate_normalises_witness :
    NormalisedBy unloggedDef unloggedDef.Validate.1 ∧
      unloggedDef.Validate.1.PortMappings = some [] :=
  ⟨Validate_normalises unloggedDef (by decide) (by decide), rfl⟩

/-- Claim C10: when `Validate` fails because `Name` or `Image` is empty the definition is left
as it was; when `Name` and `Image` are non-empty and `LogConfiguration` is nil it returns the
missing-log-configuration error with nil `PortMappings` and `Environment` already replaced by
empty sequences and every other field unchanged. -/
theorem Validate_partial_effect (d : ContainerDefinition) :
    ((d.Name = "" ∨ d.Image = "") → d.Validate.2 ≠ none ∧ d.Validate.1 = d) ∧
    (d.Name ≠ "" → d.Image ≠ "" → d.LogConfiguration = none →
      d.Validate.2 = some (Errorf "missing ContainerDefinition.LogConfiguration") ∧
      d.Validate.1 = { d with PortMappings := some (d.PortMappings.getD []),
                              Environment := some (d.Environment.getD []) } ∧
      NormalisedBy d d.Validate.1) := by
  refine ⟨?_, ?_⟩
  · intro h
    by_cases hn : d.Name = ""
    · simp [ContainerDefinition.Validate, hn]
    · rcases h with h | h
      · exact absurd h hn
      · simp [ContainerDefinition.Validate, hn, h]
  · intro hn hi hl
    refine ⟨?_, Validate_normalised d hn hi, ?_⟩
    · obtain ⟨n, i, pm, env, lc, dl, lp⟩ := d
      simp only at hn hi hl
      subst hl
      cases pm <;> cases env <;> simp [ContainerDefinition.Validate, hn, hi]
    · rw [Validate_normalised d hn hi]
      refine ⟨?_, ?_, ?_, ?_, rfl, rfl, rfl, rfl, rfl⟩
      · intro h; simp [h]
      · intro h; simp [h]
      · intro xs h; simp [h]
      · intro xs h; simp [h]

/-- Both parts of claim C10 on concrete definitions. -/
theorem Validate_partial_effect_witness :
    (unnamedDef.Validate.2 ≠ none ∧ unnamedDef.Validate.1 = unnamedDef) ∧
    (unloggedDef.Validate.2 = some (Errorf "missing ContainerDefinition.LogConfiguration") ∧
      unloggedDef.Validate.1 =
        { unloggedDef with PortMappings := some (unloggedDef.PortMappings.getD []),
                           Environment := some (unloggedDef.Environment.getD []) } ∧
      NormalisedBy unloggedDef unloggedDef.Validate.1) :=
  ⟨(Validate_partial_effect unnamedDef).1 (Or.inl rfl),
   (Validate_partial_effect unloggedDef).2 (by decide) (by decide) rfl⟩

theorem bracket_mk (l : List Char) :
    "[" ++ String.mk l ++ "]" = String.mk ('[' :: (l ++ [']'])) := by
  rfl

theorem render_singleton (j : Json) : (Json.arr [j]).render = '[' :: (j.render ++ [']']) := by
  simp [Json.render, Json.renderTail]

theorem parseJson_bracket (j : Json) :
    parseJson ("[" ++ String.mk j.render ++ "]") = some (.arr [j]) := by
  rw [bracket_mk, ← render_singleton, parseJson_render]

theorem toJson_members (d : ContainerDefinition) (j : Json) (h : d.toJson = .ok j) :
    ∃ members, j = .obj members ∧ members.map Prod.fst = memberNames d ∧
      lookupMember "name" members = some (.str d.Name) ∧
      lookupMember "image" members = some (.str d.Image) ∧
      lookupMember "portMappings" members =
        some (sliceToJson ContainerPortMapping.toJson d.PortMappings) ∧
      lookupMember "environment" members =
        some (sliceToJson ContainerEnvVar.toJson d.Environment) ∧
      lookupMember "logConfiguration" members ≠ none ∧
      lookupMember "dockerLabels" members = some (labelsToJson d.DockerLabels) ∧
      (lookupMember "linuxParameters" members = none ↔ d.LinuxParameters = none) := by
  unfold ContainerDefinition.toJson at h
  rcases hl : logConfigurationToJson d.LogConfiguration with e | lc
  · simp [hl] at h
  · simp only [hl, Except.ok.injEq] at h
    subst h
    refine ⟨_, rfl, ?_⟩
    cases hp : d.LinuxParameters <;>
      simp [memberNames, linuxParametersMember, lookupMember, hp]

theorem Marshal_ok (d : ContainerDefinition) (data : String) (h : Marshal d = .ok data) :
    ∃ j, d.toJson = .ok j ∧ data = String.mk j.render := by
  unfold Marshal at h
  rcases hj : d.toJson with e | j
  · simp [hj] at h
  · simp only [hj, Except.ok.injEq] at h
    exact ⟨j, rfl, h.symm⟩

theorem String_of_Marshal_ok (d : ContainerDefinition) (data : String)
    (h : Marshal d = .ok data) : d.String = "[" ++ data ++ "]" := by
  simp [ContainerDefinition.String, h]

theorem String_of_Marshal_error (d : ContainerDefinition) (e : Error)
    (h : Marshal d = .error e) : d.String = "[]" := by
  simp [ContainerDefinition.String, h]

/-- Claim C3, the statement as written, fails: a definition can pass `Validate` and hold a
value that `json.Marshal` rejects; `String` discards the error and returns `[]`, which is
not an array of one object. -/
theorem String_singleton_counterexample :
    chanDef.Validate.2 = none ∧ chanDef.String = "[]" ∧ ¬ EncodesAsSingleton chanDef := by
  refine ⟨rfl, rfl, ?_⟩
  rintro ⟨members, -, -, hp⟩
  have h0 : parseJson chanDef.String = some (.arr []) := rfl
  rw [h0] at hp
  simp at hp

/-- Claim C3, amended: whenever `json.Marshal` succeeds on a definition, `String()` is `[`
followed by the text `json.Marshal` returned followed by `]`; that text is the compact text
of the JSON object of the definition, whose members are named `name`, `image`,
`portMappings`, `environment`, `logConfiguration`, `dockerLabels` and, when set,
`linuxParameters`, in this order; and the output reads back as a JSON array of exactly one
element, that object.  Whenever `json.Marshal` fails, `String()` is `[]`. -/
theorem String_singleton (d : ContainerDefinition) :
    (∀ data, Marshal d = .ok data →
      d.String = "[" ++ data ++ "]" ∧
      (∃ members, d.toJson = .ok (.obj members) ∧ data = String.mk (Json.obj members).render) ∧
      EncodesAsSingleton d) ∧
    (∀ e, Marshal d = .error e → d.String = "[]") := by
  refine ⟨?_, fun e h => String_of_Marshal_error d e h⟩
  intro data h
  obtain ⟨j, hj, hdata⟩ := Marshal_ok d data h
  obtain ⟨members, rfl, hnames, -⟩ := toJson_members d j hj
  have hs := String_of_Marshal_ok d data h
  refine ⟨hs, ⟨members, hj, hdata⟩, members, ?_, hnames, ?_⟩
  · rw [hs, hdata]
  · rw [hs, hdata, parseJson_bracket]

/-- The amended claim C3 on a sample definition, with the object written out. -/
theorem String_singleton_witness :
    sampleDef.String = "[" ++ String.mk (Json.render (.obj
      [("name", .str "web"), ("image", .str "nginx:1.25"),
       ("portMappings", .arr [.obj [("containerPort", .num 80), ("hostPort", .num (-1)),
          ("protocol", .str "tcp")]]),
       ("environment", .null),
       ("logConfiguration", .obj [("logDriver", .str "awslogs"), ("secretOptions", .null),
          ("options", .obj [("awslogs-group", .str "<demo>"),
            ("awslogs-region", .str "eu-west-1")])]),
       ("dockerLabels", .null)])) ++ "]" ∧
    EncodesAsSingleton sampleDef :=
  ⟨((String_singleton sampleDef).1 _ rfl).1, ((String_singleton sampleDef).1 _ rfl).2.2⟩

set_option maxRecDepth 100000 in
/-- Claim C4, the statement as written, fails: `Validate` substitutes nothing for a nil
`DockerLabels`, and `json.Marshal` writes a nil map as `null`, not as the empty object. -/
theorem omission_counterexample :
    bareDef.Validate.2 = none ∧
    bareDef.Validate.1.String =
      "[\x7b\"name\":\"web\",\"image\":\"nginx:1.25\",\"portMappings\":[],\"environment\":[],\"logConfiguration\":\x7b\"logDriver\":\"awslogs\",\"secretOptions\":null,\"options\":null\x7d,\"dockerLabels\":null\x7d]" ∧
    ¬ OmissionSemanticsWithLabels bareDef bareDef.Validate.1.String := by
  refine ⟨rfl, rfl, ?_⟩
  rintro ⟨members, hp, -, -, -, -, hd⟩
  have h0 : parseJson bareDef.Validate.1.String = some (.arr [.obj
      [("name", .str "web"), ("image", .str "nginx:1.25"), ("portMappings", .arr []),
       ("environment", .arr []),
       ("logConfiguration", .obj [("logDriver", .str "awslogs"), ("secretOptions", .null),
          ("options", .null)]),
       ("dockerLabels", .null)]]) := rfl
  rw [h0] at hp
  simp only [Option.some.injEq, Json.arr.injEq, List.cons.injEq, Json.obj.injEq, and_true] at hp
  subst hp
  have h1 := hd rfl
  simp [lookupMember] at h1

/-- Claim C4, amended: for a definition on which `Validate` succeeds and whose validated form
`json.Marshal` encodes, the output of `String()` reads back as an array of one object in which
the key `linuxParameters` is absent exactly when `LinuxParameters` is nil, the keys `name`,
`image`, `portMappings`, `environment`, `logConfiguration` and `dockerLabels` are present, and
`portMappings` and `environment` are the empty array when the definition did not supply
them. -/
theorem omission_semantics (d : ContainerDefinition) (data : String)
    (hv : d.Validate.2 = none) (hm : Marshal d.Validate.1 = .ok data) :
    OmissionSemantics d d.Validate.1.String := by
  obtain ⟨hn, hi⟩ := Validate_ok_fields d hv
  have hnorm := Validate_normalised d hn hi
  obtain ⟨j, hj, hdata⟩ := Marshal_ok _ data hm
  obtain ⟨members, rfl, -, h1, h2, h3, h4, h5, h6, h7⟩ := toJson_members _ j hj
  rw [hnorm] at h3 h4 h6 h7
  simp only at h3 h4 h6 h7
  refine ⟨members, ?_, h7, ?_, ?_, ?_⟩
  · rw [String_of_Marshal_ok _ data hm, hdata, parseJson_bracket]
  · intro k hk
    simp only [List.mem_cons, List.mem_singleton, List.not_mem_nil, or_false] at hk
    rcases hk with rfl | rfl | rfl | rfl | rfl | rfl
    · simp [h1]
    · simp [h2]
    · simp [h3]
    · simp [h4]
    · exact h5
    · simp [h6]
  · intro h
    rw [h3, h]
    rfl
  · intro h
    rw [h4, h]
    rfl

/-- The amended claim C4 on a definition that supplies no sequences and no labels. -/
theorem omission_semantics_witness :
    OmissionSemantics bareDef bareDef.Validate.1.String ∧
    lookupMember "dockerLabels"
      [("name", .str "web"), ("image", .str "nginx:1.25"), ("portMappings", .arr []),
       ("environment", .arr []),
       ("logConfiguration", .obj [("logDriver", .str "awslogs"), ("secretOptions", .null),
          ("options", .null)]),
       ("dockerLabels", .null)] = some .null :=
  ⟨omission_semantics bareDef _ rfl rfl, rfl⟩

/-! ## Theorems on `ecs.go` -/

/-- Claim C5: with an empty `Name`, whatever the other fields and the backend, `Run` returns
the missing-name error of `Validate` and leaves the context (no creation call, no export) and
the receiver (in particular `Out.Cluster` and `Out.TaskExecRole`) as they were; and `Validate`
fails only when `Name` is empty. -/
theorem Run_empty_name (b : Backend) (e : ECS) (ctx : Context) :
    (e.Name = "" →
      e.Validate = some (Errorf "missing ECS.Name") ∧
      e.Run b ctx = (e, ctx, some (Errorf "missing ECS.Name"))) ∧
    (e.Validate ≠ none ↔ e.Name = "") := by
  refine ⟨?_, ?_⟩
  · intro h
    simp [ECS.Run, ECS.Validate, h]
  · by_cases h : e.Name = "" <;> simp [ECS.Validate, h]

/-- Claim C5 on a cluster without name, with a context and an output already set. -/
theorem Run_empty_name_witness :
    unnamedCluster.Validate = some (Errorf "missing ECS.Name") ∧
    unnamedCluster.Run sampleBackend ⟨[.Export "OTHER" "x"]⟩ =
      (unnamedCluster, ⟨[.Export "OTHER" "x"]⟩, some (Errorf "missing ECS.Name")) :=
  (Run_empty_name sampleBackend unnamedCluster ⟨[.Export "OTHER" "x"]⟩).1 rfl

theorem createCluster_plain (b : Backend) (e : ECS) (ctx : Context)
    (hl : e.EnableLogging = false) :
    e.createCluster b ctx =
      (ctx.extend [.NewCluster e.Name (some plainClusterArgs)],
        b.NewCluster ctx e.Name (some plainClusterArgs)) := by
  simp [ECS.createCluster, hl, ecs.NewCluster, Context.record, Context.extend]

theorem createCluster_logging (b : Backend) (e : ECS) (ctx : Context)
    (hl : e.EnableLogging = true) :
    e.createCluster b ctx =
      match b.NewKey ctx (e.Name ++ "-log-key") (some (logKeyArgs e)) with
      | .error err => (ctx.extend [.NewKey (e.Name ++ "-log-key") (some (logKeyArgs e))], .error err)
      | .ok logKey =>
        match b.NewLogGroup
            (ctx.extend [.NewKey (e.Name ++ "-log-key") (some (logKeyArgs e)),
              .Export "CLUSTER-LOG-KMS-KEY-ID" logKey.ID])
            (e.Name ++ "-log-group") none with
        | .error err =>
          (ctx.extend [.NewKey (e.Name ++ "-log-key") (some (logKeyArgs e)),
              .Export "CLUSTER-LOG-KMS-KEY-ID" logKey.ID,
              .NewLogGroup (e.Name ++ "-log-group") none], .error err)
        | .ok logGroup =>
          (ctx.extend [.NewKey (e.Name ++ "-log-key") (some (logKeyArgs e)),
              .Export "CLUSTER-LOG-KMS-KEY-ID" logKey.ID,
              .NewLogGroup (e.Name ++ "-log-group") none,
              .Export "CLUSTER-LOG-GROUP-ID" logGroup.ID,
              .NewCluster e.Name (some (loggingClusterArgs logKey logGroup))],
            b.NewCluster
              (ctx.extend [.NewKey (e.Name ++ "-log-key") (some (logKeyArgs e)),
                .Export "CLUSTER-LOG-KMS-KEY-ID" logKey.ID,
                .NewLogGroup (e.Name ++ "-log-group") none,
                .Export "CLUSTER-LOG-GROUP-ID" logGroup.ID])
              e.Name (some (loggingClusterArgs logKey logGroup))) := by
  rcases h1 : b.NewKey ctx (e.Name ++ "-log-key") (some (logKeyArgs e)) with err | logKey
  · simp [ECS.createCluster, hl, kms.NewKey, h1, Context.record, Context.extend]
  · rcases h2 : b.NewLogGroup
        (ctx.extend [.NewKey (e.Name ++ "-log-key") (some (logKeyArgs e)),
          .Export "CLUSTER-LOG-KMS-KEY-ID" logKey.ID])
        (e.Name ++ "-log-group") none with err | logGroup
    · simp only [Context.extend] at h2
      simp [ECS.createCluster, hl, kms.NewKey, cloudwatch.NewLogGroup, h1, h2, Context.record,
        Context.Export, Context.extend]
    · simp only [Context.extend] at h2
      simp [ECS.createCluster, hl, kms.NewKey, cloudwatch.NewLogGroup, ecs.NewCluster, h1, h2,
        Context.record, Context.Export, Context.extend]

theorem Run_named (b : Backend) (e : ECS) (ctx : Context) (hn : e.Name ≠ "") :
    e.Run b ctx =
      match e.createCluster b ctx with
      | (ctx1, .error err) => (e, ctx1, some err)
      | (ctx1, .ok cluster) =>
        match b.NewRole (ctx1.extend [.Export "CLUSTER-ID" cluster.ID])
            (e.Name ++ "-task-exec-role") (some taskExecRoleArgs) with
        | .error err =>
          ({ e with Out := { e.Out with Cluster := some cluster } },
            ctx1.extend [.Export "CLUSTER-ID" cluster.ID,
              .NewRole (e.Name ++ "-task-exec-role") (some taskExecRoleArgs)], some err)
        | .ok role =>
          match b.NewRolePolicyAttachment
              (ctx1.extend [.Export "CLUSTER-ID" cluster.ID,
                .NewRole (e.Name ++ "-task-exec-role") (some taskExecRoleArgs)])
              (e.Name ++ "-task-exec-policy") (some (taskExecPolicyArgs role)) with
          | .error err =>
            ({ e with Out := { Cluster := some cluster, TaskExecRole := some role } },
              ctx1.extend [.Export "CLUSTER-ID" cluster.ID,
                .NewRole (e.Name ++ "-task-exec-role") (some taskExecRoleArgs),
                .NewRolePolicyAttachment (e.Name ++ "-task-exec-policy")
                  (some (taskExecPolicyArgs role))], some err)
          | .ok _ =>
            ({ e with Out := { Cluster := some cluster, TaskExecRole := some role } },
              ctx1.extend [.Export "CLUSTER-ID" cluster.ID,
                .NewRole (e.Name ++ "-task-exec-role") (some taskExecRoleArgs),
                .NewRolePolicyAttachment (e.Name ++ "-task-exec-policy")
                  (some (taskExecPolicyArgs role))], none) := by
  rcases h0 : e.createCluster b ctx with ⟨ctx1, err | cluster⟩
  · simp [ECS.Run, ECS.Validate, hn, h0]
  · rcases h1 : b.NewRole (ctx1.extend [.Export "CLUSTER-ID" cluster.ID])
        (e.Name ++ "-task-exec-role") (some taskExecRoleArgs) with err | role
    · simp only [Context.extend] at h1
      simp [ECS.Run, ECS.Validate, hn, h0, iam.NewRole, h1, Context.record, Context.Export,
        Context.extend]
    · rcases h2 : b.NewRolePolicyAttachment
          (ctx1.extend [.Export "CLUSTER-ID" cluster.ID,
            .NewRole (e.Name ++ "-task-exec-role") (some taskExecRoleArgs)])
          (e.Name ++ "-task-exec-policy") (some (taskExecPolicyArgs role)) with err | r
      · simp only [Context.extend] at h1 h2
        simp [ECS.Run, ECS.Validate, hn, h0, iam.NewRole, iam.NewRolePolicyAttachment, h1, h2,
          Context.record, Context.Export, Context.extend]
      · simp only [Context.extend] at h1 h2
        simp [ECS.Run, ECS.Validate, hn, h0, iam.NewRole, iam.NewRolePolicyAttachment, h1, h2,
          Context.record, Context.Export, Context.extend]

theorem Context.extend_nil (ctx : Context) : ctx.extend [] = ctx := by
  simp [Context.extend]

theorem Context.extend_extend (ctx : Context) (xs ys : List Event) :
    (ctx.extend xs).extend ys = ctx.extend (xs ++ ys) := by
  simp [Context.extend]

theorem Backend.AllSucceed.key {b : Backend} (hb : b.AllSucceed) (ctx : Context) (name : String)
    (args : Option KeyArgs) (err : Error) : b.NewKey ctx name args ≠ .error err := by
  obtain ⟨r, hr⟩ := hb.1 ctx name args
  simp [hr]

theorem Backend.AllSucceed.logGroup {b : Backend} (hb : b.AllSucceed) (ctx : Context) (name : String)
    (args : Option LogGroupArgs) (err : Error) : b.NewLogGroup ctx name args ≠ .error err := by
  obtain ⟨r, hr⟩ := hb.2.1 ctx name args
  simp [hr]

theorem Backend.AllSucceed.cluster {b : Backend} (hb : b.AllSucceed) (ctx : Context) (name : String)
    (args : Option ClusterArgs) (err : Error) : b.NewCluster ctx name args ≠ .error err := by
  obtain ⟨r, hr⟩ := hb.2.2.1 ctx name args
  simp [hr]

theorem Backend.AllSucceed.role {b : Backend} (hb : b.AllSucceed) (ctx : Context) (name : String)
    (args : Option RoleArgs) (err : Error) : b.NewRole ctx name args ≠ .error err := by
  obtain ⟨r, hr⟩ := hb.2.2.2.1 ctx name args
  simp [hr]

theorem Backend.AllSucceed.policyAttachment {b : Backend} (hb : b.AllSucceed) (ctx : Context)
    (name : String) (args : Option RolePolicyAttachmentArgs) (err : Error) :
    b.NewRolePolicyAttachment ctx name args ≠ .error err := by
  obtain ⟨r, hr⟩ := hb.2.2.2.2 ctx name args
  simp [hr]

/-- Claim C8: with a non-empty `Name`, logging disabled and a backend whose calls all succeed,
`Run` succeeds and issues, after what the context held, exactly: one cluster creation whose
settings are the single entry `containerInsights=enabled` and which has no configuration, the
export `CLUSTER-ID` of the cluster id, one IAM role creation and one policy attachment, in
that order; so no key and no log group is created and `CLUSTER-ID` is the only export. -/
theorem Run_plain (b : Backend) (e : ECS) (ctx : Context) (hn : e.Name ≠ "")
    (hl : e.EnableLogging = false) (hb : b.AllSucceed) :
    ∃ cluster role,
      b.NewCluster ctx e.Name
        (some { Configuration := none
                Settings := some [{ Name := "containerInsights", Value := "enabled" }] })
        = .ok cluster ∧
      b.NewRole (ctx.extend ((plainSequence e cluster role).take 2))
        (e.Name ++ "-task-exec-role") (some { AssumeRolePolicy := assumeRolePolicy }) = .ok role ∧
      (e.Run b ctx).2.1.events = ctx.events ++ plainSequence e cluster role ∧
      (e.Run b ctx).2.2 = none ∧
      (plainSequence e cluster role).map Event.kind =
        [.cluster, .export, .role, .policyAttachment] ∧
      (plainSequence e cluster role).filterMap Event.exportName? = ["CLUSTER-ID"] := by
  rcases h1 : b.NewCluster ctx e.Name (some plainClusterArgs) with err | cluster
  · exact absurd h1 (hb.cluster _ _ _ _)
  rcases h2 : b.NewRole
      (ctx.extend [.NewCluster e.Name (some plainClusterArgs), .Export "CLUSTER-ID" cluster.ID])
      (e.Name ++ "-task-exec-role") (some taskExecRoleArgs) with err | role
  · exact absurd h2 (hb.role _ _ _ _)
  rcases h3 : b.NewRolePolicyAttachment
      (ctx.extend [.NewCluster e.Name (some plainClusterArgs), .Export "CLUSTER-ID" cluster.ID,
        .NewRole (e.Name ++ "-task-exec-role") (some taskExecRoleArgs)])
      (e.Name ++ "-task-exec-policy") (some (taskExecPolicyArgs role)) with err | att
  · exact absurd h3 (hb.policyAttachment _ _ _ _)
  refine ⟨cluster, role, h1, h2, ?_, ?_, rfl, rfl⟩
  · rw [Run_named b e ctx hn, createCluster_plain b e ctx hl]
    simp only [h1, Context.extend_extend, List.singleton_append, List.cons_append,
      List.nil_append, h2, h3]
    rfl
  · rw [Run_named b e ctx hn, createCluster_plain b e ctx hl]
    simp only [h1, Context.extend_extend, List.singleton_append, List.cons_append,
      List.nil_append, h2, h3]

/-- Claim C8 on the cluster `demo` against a backend that accepts everything. -/
theorem Run_plain_witness :
    ∃ cluster role,
      sampleBackend.NewCluster ⟨[]⟩ demoPlain.Name
        (some { Configuration := none
                Settings := some [{ Name := "containerInsights", Value := "enabled" }] })
        = .ok cluster ∧
      sampleBackend.NewRole (Context.extend ⟨[]⟩ ((plainSequence demoPlain cluster role).take 2))
        (demoPlain.Name ++ "-task-exec-role") (some { AssumeRolePolicy := assumeRolePolicy })
        = .ok role ∧
      (demoPlain.Run sampleBackend ⟨[]⟩).2.1.events = [] ++ plainSequence demoPlain cluster role ∧
      (demoPlain.Run sampleBackend ⟨[]⟩).2.2 = none ∧
      (plainSequence demoPlain cluster role).map Event.kind =
        [.cluster, .export, .role, .policyAttachment] ∧
      (plainSequence demoPlain cluster role).filterMap Event.exportName? = ["CLUSTER-ID"] :=
  Run_plain sampleBackend demoPlain ⟨[]⟩ (by decide) rfl
    ⟨fun _ _ _ => ⟨_, rfl⟩, fun _ _ _ => ⟨_, rfl⟩, fun _ _ _ => ⟨_, rfl⟩, fun _ _ _ => ⟨_, rfl⟩,
      fun _ _ _ => ⟨_, rfl⟩⟩

/-- Claim C7: with a non-empty `Name`, logging enabled and a backend whose calls all succeed,
`Run` succeeds and issues, after what the context held, exactly: the creation of a KMS key
with a deletion window of 7 days, the export `CLUSTER-LOG-KMS-KEY-ID` of its id, the creation
of a log group, the export `CLUSTER-LOG-GROUP-ID` of its id, the creation of a cluster whose
execute-command configuration has logging `OVERRIDE`, the ARN of that key, the name of that
log group and CloudWatch encryption enabled, the export `CLUSTER-ID`, the creation of an IAM
role and the policy attachment; the three exports are the only ones. -/
theorem Run_logging (b : Backend) (e : ECS) (ctx : Context) (hn : e.Name ≠ "")
    (hl : e.EnableLogging = true) (hb : b.AllSucceed) :
    ∃ logKey logGroup cluster role,
      b.NewKey ctx (e.Name ++ "-log-key")
        (some { Description := some (e.Name ++ " KMS encryption key for logging container activity")
                DeletionWindowInDays := some 7 }) = .ok logKey ∧
      b.NewLogGroup (ctx.extend ((loggingSequence e logKey logGroup cluster role).take 2))
        (e.Name ++ "-log-group") none = .ok logGroup ∧
      b.NewCluster (ctx.extend ((loggingSequence e logKey logGroup cluster role).take 4))
        e.Name
        (some { Configuration := some
                  { ExecuteCommandConfiguration := some
                      { KmsKeyId := some logKey.Arn
                        Logging := some "OVERRIDE"
                        LogConfiguration := some
                          { CloudWatchEncryptionEnabled := some true
                            CloudWatchLogGroupName := some logGroup.Name } } }
                Settings := none }) = .ok cluster ∧
      b.NewRole (ctx.extend ((loggingSequence e logKey logGroup cluster role).take 6))
        (e.Name ++ "-task-exec-role") (some { AssumeRolePolicy := assumeRolePolicy }) = .ok role ∧
      (e.Run b ctx).2.1.events = ctx.events ++ loggingSequence e logKey logGroup cluster role ∧
      (e.Run b ctx).2.2 = none ∧
      (loggingSequence e logKey logGroup cluster role).map Event.kind =
        [.key, .export, .logGroup, .export, .cluster, .export, .role, .policyAttachment] ∧
      (loggingSequence e logKey logGroup cluster role).filterMap Event.exportName? =
        ["CLUSTER-LOG-KMS-KEY-ID", "CLUSTER-LOG-GROUP-ID", "CLUSTER-ID"] := by
  rcases h1 : b.NewKey ctx (e.Name ++ "-log-key") (some (logKeyArgs e)) with err | logKey
  · exact absurd h1 (hb.key _ _ _ _)
  rcases h2 : b.NewLogGroup
      (ctx.extend [.NewKey (e.Name ++ "-log-key") (some (logKeyArgs e)),
        .Export "CLUSTER-LOG-KMS-KEY-ID" logKey.ID])
      (e.Name ++ "-log-group") none with err | logGroup
  · exact absurd h2 (hb.logGroup _ _ _ _)
  rcases h3 : b.NewCluster
      (ctx.extend [.NewKey (e.Name ++ "-log-key") (some (logKeyArgs e)),
        .Export "CLUSTER-LOG-KMS-KEY-ID" logKey.ID,
        .NewLogGroup (e.Name ++ "-log-group") none,
        .Export "CLUSTER-LOG-GROUP-ID" logGroup.ID])
      e.Name (some (loggingClusterArgs logKey logGroup)) with err | cluster
  · exact absurd h3 (hb.cluster _ _ _ _)
  rcases h4 : b.NewRole
      (ctx.extend [.NewKey (e.Name ++ "-log-key") (some (logKeyArgs e)),
        .Export "CLUSTER-LOG-KMS-KEY-ID" logKey.ID,
        .NewLogGroup (e.Name ++ "-log-group") none,
        .Export "CLUSTER-LOG-GROUP-ID" logGroup.ID,
        .NewCluster e.Name (some (loggingClusterArgs logKey logGroup)),
        .Export "CLUSTER-ID" cluster.ID])
      (e.Name ++ "-task-exec-role") (some taskExecRoleArgs) with err | role
  · exact absurd h4 (hb.role _ _ _ _)
  rcases h5 : b.NewRolePolicyAttachment
      (ctx.extend [.NewKey (e.Name ++ "-log-key") (some (logKeyArgs e)),
        .Export "CLUSTER-LOG-KMS-KEY-ID" logKey.ID,
        .NewLogGroup (e.Name ++ "-log-group") none,
        .Export "CLUSTER-LOG-GROUP-ID" logGroup.ID,
        .NewCluster e.Name (some (loggingClusterArgs logKey logGroup)),
        .Export "CLUSTER-ID" cluster.ID,
        .NewRole (e.Name ++ "-task-exec-role") (some taskExecRoleArgs)])
      (e.Name ++ "-task-exec-policy") (some (taskExecPolicyArgs role)) with err | att
  · exact absurd h5 (hb.policyAttachment _ _ _ _)
  refine ⟨logKey, logGroup, cluster, role, h1, h2, h3, h4, ?_, ?_, rfl, rfl⟩
  · rw [Run_named b e ctx hn, createCluster_logging b e ctx hl]
    simp only [h1, h2, h3, Context.extend_extend, List.singleton_append, List.cons_append,
      List.nil_append, h4, h5]
    rfl
  · rw [Run_named b e ctx hn, createCluster_logging b e ctx hl]
    simp only [h1, h2, h3, Context.extend_extend, List.singleton_append, List.cons_append,
      List.nil_append, h4, h5]

/-- Claim C7 on the cluster `demo` against a backend that accepts everything. -/
theorem Run_logging_witness :
    ∃ logKey logGroup cluster role,
      sampleBackend.NewKey ⟨[]⟩ (demoLogging.Name ++ "-log-key")
        (some { Description :=
                  some (demoLogging.Name ++ " KMS encryption key for logging container activity")
                DeletionWindowInDays := some 7 }) = .ok logKey ∧
      sampleBackend.NewLogGroup
        (Context.extend ⟨[]⟩ ((loggingSequence demoLogging logKey logGroup cluster role).take 2))
        (demoLogging.Name ++ "-log-group") none = .ok logGroup ∧
      sampleBackend.NewCluster
        (Context.extend ⟨[]⟩ ((loggingSequence demoLogging logKey logGroup cluster role).take 4))
        demoLogging.Name
        (some { Configuration := some
                  { ExecuteCommandConfiguration := some
                      { KmsKeyId := some logKey.Arn
                        Logging := some "OVERRIDE"
                        LogConfiguration := some
                          { CloudWatchEncryptionEnabled := some true
                            CloudWatchLogGroupName := some logGroup.Name } } }
                Settings := none }) = .ok cluster ∧
      sampleBackend.NewRole
        (Context.extend ⟨[]⟩ ((loggingSequence demoLogging logKey logGroup cluster role).take 6))
        (demoLogging.Name ++ "-task-exec-role") (some { AssumeRolePolicy := assumeRolePolicy })
        = .ok role ∧
      (demoLogging.Run sampleBackend ⟨[]⟩).2.1.events =
        [] ++ loggingSequence demoLogging logKey logGroup cluster role ∧
      (demoLogging.Run sampleBackend ⟨[]⟩).2.2 = none ∧
      (loggingSequence demoLogging logKey logGroup cluster role).map Event.kind =
        [.key, .export, .logGroup, .export, .cluster, .export, .role, .policyAttachment] ∧
      (loggingSequence demoLogging logKey logGroup cluster role).filterMap Event.exportName? =
        ["CLUSTER-LOG-KMS-KEY-ID", "CLUSTER-LOG-GROUP-ID", "CLUSTER-ID"] :=
  Run_logging sampleBackend demoLogging ⟨[]⟩ (by decide) rfl
    ⟨fun _ _ _ => ⟨_, rfl⟩, fun _ _ _ => ⟨_, rfl⟩, fun _ _ _ => ⟨_, rfl⟩, fun _ _ _ => ⟨_, rfl⟩,
      fun _ _ _ => ⟨_, rfl⟩⟩

theorem Run_error_of_empty_name (b : Backend) (e : ECS) (ctx : Context) (hn : e.Name = "") :
    (e.Run b ctx).2.2 = some (Errorf "missing ECS.Name") := by
  simp [ECS.Run, ECS.Validate, hn]

/-- Claim C9: when `Run` succeeds, `Out.Cluster` is the handle the backend returned for the
cluster creation and `Out.TaskExecRole` the handle it returned for the role creation; the run
ends with the cluster creation, the export of the cluster id, the role creation and the
attachment to that role (`Role` is the name of the role) of the policy with the fixed ARN
`arn:aws:iam::aws:policy/service-role/AmazonECSTaskExecutionRolePolicy`; and `Name` and
`EnableLogging` are unchanged. -/
theorem Run_success_out (b : Backend) (e : ECS) (ctx : Context)
    (h : (e.Run b ctx).2.2 = none) :
    ∃ before clusterArgs cluster role,
      (e.Run b ctx).2.1.events = ctx.events ++ before ++
        [.NewCluster e.Name clusterArgs,
         .Export "CLUSTER-ID" cluster.ID,
         .NewRole (e.Name ++ "-task-exec-role") (some { AssumeRolePolicy := assumeRolePolicy }),
         .NewRolePolicyAttachment (e.Name ++ "-task-exec-policy")
           (some { Role := role.Name
                   PolicyArn :=
                     "arn:aws:iam::aws:policy/service-role/AmazonECSTaskExecutionRolePolicy" })] ∧
      b.NewCluster (ctx.extend before) e.Name clusterArgs = .ok cluster ∧
      b.NewRole
        (ctx.extend (before ++ [.NewCluster e.Name clusterArgs, .Export "CLUSTER-ID" cluster.ID]))
        (e.Name ++ "-task-exec-role") (some { AssumeRolePolicy := assumeRolePolicy }) = .ok role ∧
      (e.Run b ctx).1.Out.Cluster = some cluster ∧
      (e.Run b ctx).1.Out.TaskExecRole = some role ∧
      (e.Run b ctx).1.Name = e.Name ∧
      (e.Run b ctx).1.EnableLogging = e.EnableLogging := by
  have hn : e.Name ≠ "" := by
    intro hn
    rw [Run_error_of_empty_name b e ctx hn] at h
    cases h
  rw [Run_named b e ctx hn] at h ⊢
  rcases h0 : e.createCluster b ctx with ⟨ctx1, err | cluster⟩
  · simp [h0] at h
  have hc : ∃ before clusterArgs, ctx1 = ctx.extend (before ++ [.NewCluster e.Name clusterArgs]) ∧
      b.NewCluster (ctx.extend before) e.Name clusterArgs = .ok cluster := by
    cases hl : e.EnableLogging with
    | false =>
      rw [createCluster_plain b e ctx hl] at h0
      simp only [Prod.mk.injEq] at h0
      exact ⟨[], _, by simpa using h0.1.symm, by simpa [Context.extend_nil] using h0.2⟩
    | true =>
      rw [createCluster_logging b e ctx hl] at h0
      rcases h1 : b.NewKey ctx (e.Name ++ "-log-key") (some (logKeyArgs e)) with err | logKey
      · simp [h1] at h0
      rcases h2 : b.NewLogGroup
          (ctx.extend [.NewKey (e.Name ++ "-log-key") (some (logKeyArgs e)),
            .Export "CLUSTER-LOG-KMS-KEY-ID" logKey.ID])
          (e.Name ++ "-log-group") none with err | logGroup
      · simp [h1, h2] at h0
      simp only [h1, h2, Prod.mk.injEq] at h0
      exact ⟨[.NewKey (e.Name ++ "-log-key") (some (logKeyArgs e)),
            .Export "CLUSTER-LOG-KMS-KEY-ID" logKey.ID,
            .NewLogGroup (e.Name ++ "-log-group") none,
            .Export "CLUSTER-LOG-GROUP-ID" logGroup.ID], _, by simpa using h0.1.symm, h0.2⟩
  obtain ⟨before, clusterArgs, rfl, hcl⟩ := hc
  simp only [h0, Context.extend_extend, List.append_assoc, List.singleton_append,
    List.cons_append, List.nil_append] at h ⊢
  rcases h3 : b.NewRole
      (ctx.extend (before ++ [.NewCluster e.Name clusterArgs, .Export "CLUSTER-ID" cluster.ID]))
      (e.Name ++ "-task-exec-role") (some taskExecRoleArgs) with err | role
  · simp [h3] at h
  simp only [h3] at h ⊢
  rcases h4 : b.NewRolePolicyAttachment
      (ctx.extend (before ++ [.NewCluster e.Name clusterArgs, .Export "CLUSTER-ID" cluster.ID,
        .NewRole (e.Name ++ "-task-exec-role") (some taskExecRoleArgs)]))
      (e.Name ++ "-task-exec-policy") (some (taskExecPolicyArgs role)) with err | att
  · simp [h4] at h
  refine ⟨before, clusterArgs, cluster, role, ?_, hcl, h3, ?_, ?_, ?_, ?_⟩ <;>
    (simp only [h4]; try simp [Context.extend, taskExecRoleArgs, taskExecPolicyArgs])

/-- Claim C9 on the cluster `demo` against a backend that accepts everything. -/
theorem Run_success_out_witness :
    ∃ before clusterArgs cluster role,
      (demoLogging.Run sampleBackend ⟨[]⟩).2.1.events = [] ++ before ++
        [.NewCluster demoLogging.Name clusterArgs,
         .Export "CLUSTER-ID" cluster.ID,
         .NewRole (demoLogging.Name ++ "-task-exec-role")
           (some { AssumeRolePolicy := assumeRolePolicy }),
         .NewRolePolicyAttachment (demoLogging.Name ++ "-task-exec-policy")
           (some { Role := role.Name
                   PolicyArn :=
                     "arn:aws:iam::aws:policy/service-role/AmazonECSTaskExecutionRolePolicy" })] ∧
      sampleBackend.NewCluster (Context.extend ⟨[]⟩ before) demoLogging.Name clusterArgs
        = .ok cluster ∧
      sampleBackend.NewRole
        (Context.extend ⟨[]⟩
          (before ++ [.NewCluster demoLogging.Name clusterArgs, .Export "CLUSTER-ID" cluster.ID]))
        (demoLogging.Name ++ "-task-exec-role") (some { AssumeRolePolicy := assumeRolePolicy })
        = .ok role ∧
      (demoLogging.Run sampleBackend ⟨[]⟩).1.Out.Cluster = some cluster ∧
      (demoLogging.Run sampleBackend ⟨[]⟩).1.Out.TaskExecRole = some role ∧
      (demoLogging.Run sampleBackend ⟨[]⟩).1.Name = demoLogging.Name ∧
      (demoLogging.Run sampleBackend ⟨[]⟩).1.EnableLogging = demoLogging.EnableLogging :=
  Run_success_out sampleBackend demoLogging ⟨[]⟩ rfl

theorem Run_plain_failure (b : Backend) (e : ECS) (ctx : Context) (err : Error)
    (hn : e.Name ≠ "") (hl : e.EnableLogging = false) (h : (e.Run b ctx).2.2 = some err) :
    StopsAtFirstFailure b e ctx err := by
  have hfull : ∀ k g c r, fullSequence e k g c r = plainSequence e c r := by
    intro k g c r; simp [fullSequence, hl]
  unfold StopsAtFirstFailure
  simp only [hfull]
  rw [Run_named b e ctx hn, createCluster_plain b e ctx hl] at h ⊢
  rcases h1 : b.NewCluster ctx e.Name (some plainClusterArgs) with err1 | cluster
  · simp only [h1, Option.some.injEq] at h ⊢
    subst h
    refine ⟨0, ⟨"", ""⟩, ⟨"", ""⟩, ⟨""⟩, ⟨"", ""⟩, _, rfl, rfl, ?_, ?_, ?_⟩
    · simp [plainSequence, Context.extend, plainClusterArgs]
    · simp only [plainClusterArgs] at h1
      simp [plainSequence, Context.extend_nil, Backend.failure, h1]
    · intro i c1 hi; omega
  simp only [h1, Context.extend_extend, List.singleton_append, List.cons_append,
    List.nil_append] at h ⊢
  rcases h2 : b.NewRole
      (ctx.extend [.NewCluster e.Name (some plainClusterArgs), .Export "CLUSTER-ID" cluster.ID])
      (e.Name ++ "-task-exec-role") (some taskExecRoleArgs) with err2 | role
  · simp only [h2, Option.some.injEq] at h ⊢
    subst h
    refine ⟨2, ⟨"", ""⟩, ⟨"", ""⟩, cluster, ⟨"", ""⟩, _, rfl, rfl, ?_, ?_, ?_⟩
    · simp [plainSequence, Context.extend, plainClusterArgs, taskExecRoleArgs]
    · simp only [plainClusterArgs, taskExecRoleArgs] at h2
      simp [plainSequence, Backend.failure, h2]
    · simp only [plainClusterArgs] at h1
      intro i c1 hi hc
      interval_cases i <;> simp [plainSequence] at hc <;> subst hc <;>
        simp [plainSequence, Context.extend_nil, Backend.failure, h1]
  simp only [h2] at h ⊢
  rcases h3 : b.NewRolePolicyAttachment
      (ctx.extend [.NewCluster e.Name (some plainClusterArgs), .Export "CLUSTER-ID" cluster.ID,
        .NewRole (e.Name ++ "-task-exec-role") (some taskExecRoleArgs)])
      (e.Name ++ "-task-exec-policy") (some (taskExecPolicyArgs role)) with err3 | att
  · simp only [h3, Option.some.injEq] at h ⊢
    subst h
    refine ⟨3, ⟨"", ""⟩, ⟨"", ""⟩, cluster, role, _, rfl, rfl, ?_, ?_, ?_⟩
    · simp [plainSequence, Context.extend, plainClusterArgs, taskExecRoleArgs,
        taskExecPolicyArgs]
    · simp only [plainClusterArgs, taskExecRoleArgs, taskExecPolicyArgs] at h3
      simp [plainSequence, Backend.failure, h3]
    · simp only [plainClusterArgs, taskExecRoleArgs] at h1 h2
      intro i c1 hi hc
      interval_cases i <;> simp [plainSequence] at hc <;> subst hc <;>
        simp [plainSequence, Context.extend_nil, Backend.failure, h1, h2]
  · simp [h3] at h

theorem Run_logging_failure (b : Backend) (e : ECS) (ctx : Context) (err : Error)
    (hn : e.Name ≠ "") (hl : e.EnableLogging = true) (h : (e.Run b ctx).2.2 = some err) :
    StopsAtFirstFailure b e ctx err := by
  have hfull : ∀ k g c r, fullSequence e k g c r = loggingSequence e k g c r := by
    intro k g c r; simp [fullSequence, hl]
  unfold StopsAtFirstFailure
  simp only [hfull]
  rw [Run_named b e ctx hn, createCluster_logging b e ctx hl] at h ⊢
  rcases h1 : b.NewKey ctx (e.Name ++ "-log-key") (some (logKeyArgs e)) with err1 | logKey
  · simp only [h1, Option.some.injEq] at h ⊢
    subst h
    simp only [logKeyArgs, loggingClusterArgs, taskExecRoleArgs, taskExecPolicyArgs] at h1
    refine ⟨0, ⟨"", ""⟩, ⟨"", ""⟩, ⟨""⟩, ⟨"", ""⟩, _, rfl, rfl, ?_, ?_, ?_⟩
    · simp [loggingSequence, Context.extend, logKeyArgs, loggingClusterArgs, taskExecRoleArgs, taskExecPolicyArgs]
    · simp [loggingSequence, Context.extend_nil, Backend.failure, h1]
    · intro i c1 hi; omega
  simp only [h1] at h ⊢
  rcases h2 : b.NewLogGroup (ctx.extend [.NewKey (e.Name ++ "-log-key") (some (logKeyArgs e)),
        .Export "CLUSTER-LOG-KMS-KEY-ID" logKey.ID])
      (e.Name ++ "-log-group") none with err2 | logGroup
  · simp only [h2, Option.some.injEq] at h ⊢
    subst h
    simp only [logKeyArgs, loggingClusterArgs, taskExecRoleArgs, taskExecPolicyArgs] at h1 h2
    refine ⟨2, logKey, ⟨"", ""⟩, ⟨""⟩, ⟨"", ""⟩, _, rfl, rfl, ?_, ?_, ?_⟩
    · simp [loggingSequence, Context.extend, logKeyArgs, loggingClusterArgs, taskExecRoleArgs, taskExecPolicyArgs]
    · simp [loggingSequence, Context.extend_nil, Backend.failure, h2]
    · intro i c1 hi hc
      interval_cases i <;> simp [loggingSequence] at hc <;> subst hc <;>
        simp [loggingSequence, Context.extend_nil, Backend.failure, h1]
  simp only [h2] at h ⊢
  rcases h3 : b.NewCluster (ctx.extend [.NewKey (e.Name ++ "-log-key") (some (logKeyArgs e)),
        .Export "CLUSTER-LOG-KMS-KEY-ID" logKey.ID,
        .NewLogGroup (e.Name ++ "-log-group") none,
        .Export "CLUSTER-LOG-GROUP-ID" logGroup.ID])
      e.Name (some (loggingClusterArgs logKey logGroup)) with err3 | cluster
  · simp only [h3, Option.some.injEq] at h ⊢
    subst h
    simp only [logKeyArgs, loggingClusterArgs, taskExecRoleArgs, taskExecPolicyArgs] at h1 h2 h3
    refine ⟨4, logKey, logGroup, ⟨""⟩, ⟨"", ""⟩, _, rfl, rfl, ?_, ?_, ?_⟩
    · simp [loggingSequence, Context.extend, logKeyArgs, loggingClusterArgs, taskExecRoleArgs, taskExecPolicyArgs]
    · simp [loggingSequence, Context.extend_nil, Backend.failure, h3]
    · intro i c1 hi hc
      interval_cases i <;> simp [loggingSequence] at hc <;> subst hc <;>
        simp [loggingSequence, Context.extend_nil, Backend.failure, h1, h2]
  simp only [h3, Context.extend_extend, List.singleton_append, List.cons_append,
    List.nil_append] at h ⊢
  rcases h4 : b.NewRole (ctx.extend [.NewKey (e.Name ++ "-log-key") (some (logKeyArgs e)),
        .Export "CLUSTER-LOG-KMS-KEY-ID" logKey.ID,
        .NewLogGroup (e.Name ++ "-log-group") none,
        .Export "CLUSTER-LOG-GROUP-ID" logGroup.ID,
        .NewCluster e.Name (some (loggingClusterArgs logKey logGroup)),
        .Export "CLUSTER-ID" cluster.ID])
      (e.Name ++ "-task-exec-role") (some taskExecRoleArgs) with err4 | role
  · simp only [h4, Option.some.injEq] at h ⊢
    subst h
    simp only [logKeyArgs, loggingClusterArgs, taskExecRoleArgs, taskExecPolicyArgs] at h1 h2 h3 h4
    refine ⟨6, logKey, logGroup, cluster, ⟨"", ""⟩, _, rfl, rfl, ?_, ?_, ?_⟩
    · simp [loggingSequence, Context.extend, logKeyArgs, loggingClusterArgs, taskExecRoleArgs, taskExecPolicyArgs]
    · simp [loggingSequence, Context.extend_nil, Backend.failure, h4]
    · intro i c1 hi hc
      interval_cases i <;> simp [loggingSequence] at hc <;> subst hc <;>
        simp [loggingSequence, Context.extend_nil, Backend.failure, h1, h2, h3]
  simp only [h4] at h ⊢
  rcases h5 : b.NewRolePolicyAttachment (ctx.extend [.NewKey (e.Name ++ "-log-key") (some (logKeyArgs e)),
        .Export "CLUSTER-LOG-KMS-KEY-ID" logKey.ID,
        .NewLogGroup (e.Name ++ "-log-group") none,
        .Export "CLUSTER-LOG-GROUP-ID" logGroup.ID,
        .NewCluster e.Name (some (loggingClusterArgs logKey logGroup)),
        .Export "CLUSTER-ID" cluster.ID,
        .NewRole (e.Name ++ "-task-exec-role") (some taskExecRoleArgs)])
      (e.Name ++ "-task-exec-policy") (some (taskExecPolicyArgs role)) with err5 | att
  · simp only [h5, Option.some.injEq] at h ⊢
    subst h
    simp only [logKeyArgs, loggingClusterArgs, taskExecRoleArgs, taskExecPolicyArgs] at h1 h2 h3 h4 h5
    refine ⟨7, logKey, logGroup, cluster, role, _, rfl, rfl, ?_, ?_, ?_⟩
    · simp [loggingSequence, Context.extend, logKeyArgs, loggingClusterArgs, taskExecRoleArgs, taskExecPolicyArgs]
    · simp [loggingSequence, Context.extend_nil, Backend.failure, h5]
    · intro i c1 hi hc
      interval_cases i <;> simp [loggingSequence] at hc <;> subst hc <;>
        simp [loggingSequence, Context.extend_nil, Backend.failure, h1, h2, h3, h4]
  · simp [h5] at h

theorem Run_plain_success (b : Backend) (e : ECS) (ctx : Context)
    (hn : e.Name ≠ "") (hl : e.EnableLogging = false) (h : (e.Run b ctx).2.2 = none) :
    CompletesWithoutFailure b e ctx := by
  have hfull : ∀ k g c r, fullSequence e k g c r = plainSequence e c r := by
    intro k g c r; simp [fullSequence, hl]
  unfold CompletesWithoutFailure
  simp only [hfull]
  rw [Run_named b e ctx hn, createCluster_plain b e ctx hl] at h ⊢
  rcases h1 : b.NewCluster ctx e.Name (some plainClusterArgs) with err1 | cluster
  · simp [h1] at h
  simp only [h1, Context.extend_extend, List.singleton_append, List.cons_append,
    List.nil_append] at h ⊢
  rcases h2 : b.NewRole
      (ctx.extend [.NewCluster e.Name (some plainClusterArgs), .Export "CLUSTER-ID" cluster.ID])
      (e.Name ++ "-task-exec-role") (some taskExecRoleArgs) with err2 | role
  · simp [h2] at h
  simp only [h2] at h ⊢
  rcases h3 : b.NewRolePolicyAttachment
      (ctx.extend [.NewCluster e.Name (some plainClusterArgs), .Export "CLUSTER-ID" cluster.ID,
        .NewRole (e.Name ++ "-task-exec-role") (some taskExecRoleArgs)])
      (e.Name ++ "-task-exec-policy") (some (taskExecPolicyArgs role)) with err3 | att
  · simp [h3] at h
  simp only [plainClusterArgs, taskExecRoleArgs, taskExecPolicyArgs] at h1 h2 h3
  refine ⟨⟨"", ""⟩, ⟨"", ""⟩, cluster, role, ?_, ?_⟩
  · simp [plainSequence, Context.extend, plainClusterArgs, taskExecRoleArgs,
      taskExecPolicyArgs]
  · intro i c1 hc
    have hi : i < 4 := by
      by_contra hcon
      rw [List.getElem?_eq_none (by simp [plainSequence]; omega)] at hc
      cases hc
    interval_cases i <;> simp [plainSequence] at hc <;> subst hc <;>
      simp [plainSequence, Context.extend_nil, Backend.failure, h1, h2, h3]

theorem Run_logging_success (b : Backend) (e : ECS) (ctx : Context)
    (hn : e.Name ≠ "") (hl : e.EnableLogging = true) (h : (e.Run b ctx).2.2 = none) :
    CompletesWithoutFailure b e ctx := by
  have hfull : ∀ k g c r, fullSequence e k g c r = loggingSequence e k g c r := by
    intro k g c r; simp [fullSequence, hl]
  unfold CompletesWithoutFailure
  simp only [hfull]
  rw [Run_named b e ctx hn, createCluster_logging b e ctx hl] at h ⊢
  rcases h1 : b.NewKey ctx (e.Name ++ "-log-key") (some (logKeyArgs e)) with err1 | logKey
  · simp [h1] at h
  simp only [h1] at h ⊢
  rcases h2 : b.NewLogGroup (ctx.extend [.NewKey (e.Name ++ "-log-key") (some (logKeyArgs e)),
        .Export "CLUSTER-LOG-KMS-KEY-ID" logKey.ID])
      (e.Name ++ "-log-group") none with err2 | logGroup
  · simp [h2] at h
  simp only [h2] at h ⊢
  rcases h3 : b.NewCluster (ctx.extend [.NewKey (e.Name ++ "-log-key") (some (logKeyArgs e)),
        .Export "CLUSTER-LOG-KMS-KEY-ID" logKey.ID,
        .NewLogGroup (e.Name ++ "-log-group") none,
        .Export "CLUSTER-LOG-GROUP-ID" logGroup.ID])
      e.Name (some (loggingClusterArgs logKey logGroup)) with err3 | cluster
  · simp [h3] at h
  simp only [h3, Context.extend_extend, List.singleton_append, List.cons_append,
    List.nil_append] at h ⊢
  rcases h4 : b.NewRole (ctx.extend [.NewKey (e.Name ++ "-log-key") (some (logKeyArgs e)),
        .Export "CLUSTER-LOG-KMS-KEY-ID" logKey.ID,
        .NewLogGroup (e.Name ++ "-log-group") none,
        .Export "CLUSTER-LOG-GROUP-ID" logGroup.ID,
        .NewCluster e.Name (some (loggingClusterArgs logKey logGroup)),
        .Export "CLUSTER-ID" cluster.ID])
      (e.Name ++ "-task-exec-role") (some taskExecRoleArgs) with err4 | role
  · simp [h4] at h
  simp only [h4] at h ⊢
  rcases h5 : b.NewRolePolicyAttachment (ctx.extend [.NewKey (e.Name ++ "-log-key") (some (logKeyArgs e)),
        .Export "CLUSTER-LOG-KMS-KEY-ID" logKey.ID,
        .NewLogGroup (e.Name ++ "-log-group") none,
        .Export "CLUSTER-LOG-GROUP-ID" logGroup.ID,
        .NewCluster e.Name (some (loggingClusterArgs logKey logGroup)),
        .Export "CLUSTER-ID" cluster.ID,
        .NewRole (e.Name ++ "-task-exec-role") (some taskExecRoleArgs)])
      (e.Name ++ "-task-exec-policy") (some (taskExecPolicyArgs role)) with err5 | att
  · simp [h5] at h
  simp only [logKeyArgs, loggingClusterArgs, taskExecRoleArgs, taskExecPolicyArgs] at h1 h2 h3 h4 h5
  refine ⟨logKey, logGroup, cluster, role, ?_, ?_⟩
  · simp [loggingSequence, Context.extend, logKeyArgs, loggingClusterArgs, taskExecRoleArgs, taskExecPolicyArgs]
  · intro i c1 hc
    have hi : i < 8 := by
      by_contra hcon
      rw [List.getElem?_eq_none (by simp [loggingSequence]; omega)] at hc
      cases hc
    interval_cases i <;> simp [loggingSequence] at hc <;> subst hc <;>
      simp [loggingSequence, Context.extend_nil, Backend.failure, h1, h2, h3, h4, h5]

/-- Claim C6: with a non-empty `Name`, when `Run` returns an error, the requests it issued
are an initial segment of the full sequence (key, export, log group, export, cluster, export,
role, policy attachment with logging; cluster, export, role, policy attachment without), the
last request issued is a creation call, the backend answered that call with exactly the error
returned, and every creation call before it succeeded: nothing is created or exported after
the first failure and no call is repeated.  When `Run` returns no error, the whole sequence
was issued and no call failed; so `Run` returns an error exactly when a creation call it
issues fails. -/
theorem Run_first_failure (b : Backend) (e : ECS) (ctx : Context) (hn : e.Name ≠ "") :
    (∀ err, (e.Run b ctx).2.2 = some err → StopsAtFirstFailure b e ctx err) ∧
    ((e.Run b ctx).2.2 = none → CompletesWithoutFailure b e ctx) := by
  cases hl : e.EnableLogging with
  | false =>
    exact ⟨fun err h => Run_plain_failure b e ctx err hn hl h,
      fun h => Run_plain_success b e ctx hn hl h⟩
  | true =>
    exact ⟨fun err h => Run_logging_failure b e ctx err hn hl h,
      fun h => Run_logging_success b e ctx hn hl h⟩

/-- A run against a backend that refuses the log group stops at that call, with its error. -/
theorem Run_first_failure_witness :
    StopsAtFirstFailure noLogGroupBackend demoLogging ⟨[]⟩ ⟨"AccessDenied: logs:CreateLogGroup"⟩ ∧
    (demoLogging.Run noLogGroupBackend ⟨[]⟩).2.1.events.map Event.kind =
      [.key, .export, .logGroup] ∧
    CompletesWithoutFailure sampleBackend demoLogging ⟨[]⟩ :=
  ⟨(Run_first_failure noLogGroupBackend demoLogging ⟨[]⟩ (by decide)).1
      ⟨"AccessDenied: logs:CreateLogGroup"⟩ rfl,
    by decide,
    (Run_first_failure sampleBackend demoLogging ⟨[]⟩ (by decide)).2 rfl⟩

end Aws
